import Mathlib

/-!
Verification of the eduplatform-api document ingestion and vector retrieval
pipeline.  Shallow embedding of:

* the word-window chunker `DocumentProcessor._chunk_text`
  (`src/app/file/document_processor.py`, lines 169-198; the same algorithm
  appears verbatim as `DocumentProcessor.chunk_text` in
  `src/app/services/document_processor.py`, lines 59-82),
* the multi-strategy PDF extractor `DocumentProcessor._extract_text_from_pdf`,
* the in-memory job tracker and background ingestion coordinator of
  `src/app/services/rag_service.py`,
* the similarity search of `RAGService.search_similar_vectors` and of
  `VectorRepository.search_similar_vectors` (`src/app/file/repository.py`).

Stateful Python code is modelled by explicit state passing over a `Store`
record; fallible code returns `Except`/`Option`; the unbounded `while` loop of
the chunker takes explicit fuel (`none` = the loop has not finished within
`fuel` iterations).
-/

namespace EduRAG

/-! ## Chunker -/

/-- Drop leading whitespace characters. -/
def dropLeadingWs : List Char → List Char
  | [] => []
  | c :: cs => if c.isWhitespace then dropLeadingWs cs else c :: cs

/-- Python `s.strip()`: remove leading and trailing whitespace. -/
def pyStrip (s : String) : String :=
  ⟨((dropLeadingWs ((dropLeadingWs s.data).reverse)).reverse)⟩

/-- Python `text.split()`: split on whitespace runs, dropping empty pieces. -/
def splitWords (text : String) : List String :=
  (text.split fun c => c.isWhitespace).filter fun w => w ≠ ""

/-- `' '.join(words[s:e])` — the chunk string built from one window. -/
def mkChunk (words : List String) (s e : Nat) : String :=
  String.intercalate " " ((words.drop s).take (e - s))

/-- The `while start < len(words)` loop of `_chunk_text`
(`src/app/file/document_processor.py:186-195`), with explicit fuel.  Each
iteration takes `end = min(start + chunk_size, len(words))`, appends
`' '.join(words[start:end])`, sets `start = end - overlap` and breaks when the
new `start` is `>= len(words)`.  `none` means the fuel was exhausted before
the loop returned.  Subtraction is on `Nat`; in every state reached in the
theorems below `end ≥ overlap`, so it agrees with Python. -/
def chunkLoop (words : List String) (chunkSize overlap : Nat) :
    Nat → Nat → List String → Option (List String)
  | 0, _, _ => none
  | fuel + 1, start, acc =>
    if start < words.length then
      if words.length ≤ min (start + chunkSize) words.length - overlap then
        some (acc ++ [mkChunk words start (min (start + chunkSize) words.length)])
      else
        chunkLoop words chunkSize overlap fuel
          (min (start + chunkSize) words.length - overlap)
          (acc ++ [mkChunk words start (min (start + chunkSize) words.length)])
    else some acc

/-- `DocumentProcessor._chunk_text` (and `chunk_text` in
`src/app/services/document_processor.py`): empty sequence for whitespace-only
input, the text itself when it fits in one window, otherwise the sliding-window
loop.  `some cs` = the Python function returns `cs` within `fuel` loop
iterations; `none` = it has not returned. -/
def chunk_text (text : String) (chunkSize overlap fuel : Nat) :
    Option (List String) :=
  if pyStrip text = "" then some []
  else
    if (splitWords text).length ≤ chunkSize then some [text]
    else chunkLoop (splitWords text) chunkSize overlap fuel 0 []

/-! ## PDF extraction (`DocumentProcessor._extract_text_from_pdf`,
`src/app/file/document_processor.py:21-92`) -/

/-- Outcome of `page.extract_text()` for one page: `.error ()` = the per-page
call raised (caught and skipped by the page loop), `.ok t` = it returned text
`t`.  A Python `None` return behaves exactly like `""` — both fail the
`if page_text and page_text.strip()` test — so it is represented by `.ok ""`. -/
abbrev PageResult : Type := Except Unit String

/-- One step of the page loop shared by both methods: non-empty,
non-whitespace-only page text is appended followed by a newline; anything
else (raised page, empty or whitespace-only text) leaves the accumulator
unchanged (`continue`). -/
def pageStep (text : String) (p : PageResult) : String :=
  match p with
  | .error _ => text
  | .ok t => if t ≠ "" ∧ pyStrip t ≠ "" then text ++ t ++ "\n" else text

/-- The page loop of either extraction method, starting from `text = ""`. -/
def collectPages (pages : List PageResult) : String :=
  pages.foldl pageStep ""

/-- The `ValueError` message raised when PyPDF2 finds no readable text. -/
def noReadableTextMsg : String :=
  "No readable text found in PDF. The PDF might be image-based, encrypted, or corrupted."

/-- The final error raised when both methods failed; `e` is `str(e)` of the
exception caught during the PyPDF2 attempt. -/
def bothMethodsFailedMsg (e : String) : String :=
  "PDF text extraction failed with both methods. The PDF might be image-based, encrypted, password-protected, or corrupted. Error: " ++ e

/-- Method 2 (PyPDF2 fallback), lines 57-92.  `m2` is the outcome of
`PyPDF2.PdfReader` plus the page iteration (`.error e` = it raised with
message `e`, `.ok pages` = the per-page outcomes).  A whitespace-only result
raises `ValueError(noReadableTextMsg)` inside the same `try`, so the method's
own `except` wraps either exception into `bothMethodsFailedMsg`. -/
def pypdfStage (m2 : Except String (List PageResult)) : Except String String :=
  match m2 with
  | .error e => .error (bothMethodsFailedMsg e)
  | .ok pages =>
    if pyStrip (collectPages pages) ≠ "" then .ok (pyStrip (collectPages pages))
    else .error (bothMethodsFailedMsg noReadableTextMsg)

/-- `DocumentProcessor._extract_text_from_pdf`: try pdfplumber first (`m1`:
`.error ()` = `pdfplumber.open`/page iteration raised, `.ok pages` = the
per-page outcomes); if it raised or extracted only whitespace, fall back to
PyPDF2 (`m2`). -/
def extract_text_from_pdf (m1 : Except Unit (List PageResult))
    (m2 : Except String (List PageResult)) : Except String String :=
  match m1 with
  | .error _ => pypdfStage m2
  | .ok pages =>
    if pyStrip (collectPages pages) ≠ "" then .ok (pyStrip (collectPages pages))
    else pypdfStage m2

/-! ## Relational store (`app/models/rag_models.py` schema, operated on by
`src/app/services/rag_service.py`) -/

/-- A `source_files` row (`SourceFileDB`): integer autoincrement id and a
unique `file_path`.  (`created_at` timestamps are not modelled.) -/
structure SourceFile where
  id : Nat
  file_path : String
deriving DecidableEq

/-- A `vectors` row (`VectorDB`): integer autoincrement id, foreign key to
`source_files`, the embedding and the chunk text.  Embedding components are
integers here; no verified operation inspects them. -/
structure VectorRow where
  id : Nat
  source_file_id : Nat
  vector_data : List Int
  snippet : String
deriving DecidableEq

/-- Committed database state plus the two autoincrement counters. -/
structure Store where
  files : List SourceFile
  vectors : List VectorRow
  nextFileId : Nat
  nextVectorId : Nat
deriving DecidableEq

/-- `select(SourceFileDB).where(file_path == path)` followed by
`scalar_one_or_none()`; the unique index on `file_path` makes the first
match the only one. -/
def findFile (store : Store) (path : String) : Option SourceFile :=
  store.files.find? fun f => f.file_path == path

/-- `RAGService.document_exists`. -/
def document_exists (store : Store) (path : String) : Bool :=
  (findFile store path).isSome

/-- `RAGService.get_document_vector_count`. -/
def get_document_vector_count (store : Store) (path : String) : Nat :=
  match findFile store path with
  | none => 0
  | some f => (store.vectors.filter fun v => v.source_file_id == f.id).length

/-- `RAGService.delete_source_file`: ORM delete of the source-file row; the
relationship's `cascade="all, delete-orphan"` also deletes its vectors. -/
def delete_source_file (store : Store) (path : String) : Store :=
  match findFile store path with
  | none => store
  | some f =>
    { store with
      files := store.files.filter fun g => g.id != f.id
      vectors := store.vectors.filter fun v => v.source_file_id != f.id }

/-- The committed effect of one successful
`RAGService.insert_document_record` call: resolve (or create, via
`db.add` + `flush`) the source-file row, then insert the vector row.  In the
source the embedding is requested between those two steps and nothing is
committed until the final `db.commit()`, so a failed embedding call leaves
the committed store unchanged; `insert_document_record` below models exactly
that commit point. -/
def insertRecordOk (store : Store) (path content : String) (v : List Int) :
    Store :=
  match findFile store path with
  | some f =>
    { store with
      vectors := store.vectors ++ [⟨store.nextVectorId, f.id, v, content⟩]
      nextVectorId := store.nextVectorId + 1 }
  | none =>
    { store with
      files := store.files ++ [⟨store.nextFileId, path⟩]
      nextFileId := store.nextFileId + 1
      vectors := store.vectors ++ [⟨store.nextVectorId, store.nextFileId, v, content⟩]
      nextVectorId := store.nextVectorId + 1 }

/-- `RAGService.insert_document_record`, with the embedding provider
(`RAGService.get_embedding`) as the explicit collaborator `embed`
(`.error e` = the call raised with message `e`). -/
def insert_document_record (embed : String → Except String (List Int))
    (store : Store) (path content : String) : Except String Store :=
  match embed content with
  | .error e => .error e
  | .ok v => .ok (insertRecordOk store path content v)

/-- An embedding provider that always succeeds, returning `ef c`. -/
def okEmbed (ef : String → List Int) : String → Except String (List Int) :=
  fun c => .ok (ef c)

/-- An embedding provider that raises `e` on the text `bad` and succeeds
elsewhere. -/
def failEmbed (ef : String → List Int) (bad e : String) :
    String → Except String (List Int) :=
  fun c => if c = bad then .error e else .ok (ef c)

/-- Sequential insertion of chunk texts (the flattened insert loop of
`process_document_background`): stops at the first raised embedding call;
previously committed inserts stay. -/
def insertSeq (embed : String → Except String (List Int)) (path : String) :
    Store → List String → Store × Option String
  | store, [] => (store, none)
  | store, c :: rest =>
    match insert_document_record embed store path c with
    | .error e => (store, some e)
    | .ok s' => insertSeq embed path s' rest

/-- All-successful sequential insertion with the total provider `ef`. -/
def insertAllOk (ef : String → List Int) (path : String) :
    Store → List String → Store
  | store, [] => store
  | store, c :: rest => insertAllOk ef path (insertRecordOk store path c (ef c)) rest

/-! ## Job tracker (`RAGService.processing_jobs`, `app/models/rag.py`) -/

/-- `ProcessingStatus` (`app/models/rag.py`). -/
inductive ProcessingStatus where
  | pending
  | processing
  | completed
  | failed
deriving DecidableEq

/-- `ProcessingJob` (`app/models/rag.py`); the `created_at`/`completed_at`
wall-clock timestamps are not modelled. -/
structure ProcessingJob where
  file_name : String
  status : ProcessingStatus
  message : String
  chunks_created : Option Nat
  error_details : Option String
deriving DecidableEq

/-- The tracker's in-memory job table (`job_id → job`), plus — as pure
instrumentation — the ordered list of statuses applied by
`create_processing_job`/`update_job_status`: the observable status sequence
of one tracker. -/
structure JobState where
  jobs : List (String × ProcessingJob)
  trace : List ProcessingStatus
deriving DecidableEq

/-- `RAGService.create_processing_job` (the generated uuid is passed in as
`jobId`; the estimated-duration hint is advisory text only and not stored on
the job model). -/
def create_processing_job (js : JobState) (jobId fileName : String) : JobState :=
  { jobs := js.jobs ++ [(jobId,
      { file_name := fileName
        status := .pending
        message := "Document uploaded successfully. Processing started."
        chunks_created := none
        error_details := none })]
    trace := js.trace ++ [.pending] }

/-- The field rewrite performed by one `update_job_status` call on the
addressed job: set `status` and `message`, stamp the two `**kwargs` fields
callers actually pass when present (`none` = kwarg absent = field
untouched). -/
def applyUpdate (st : ProcessingStatus) (msg : String) (cc : Option Nat)
    (ed : Option String) (j : ProcessingJob) : ProcessingJob :=
  { j with
    status := st
    message := msg
    chunks_created := match cc with | some n => some n | none => j.chunks_created
    error_details := match ed with | some e => some e | none => j.error_details }

/-- `RAGService.update_job_status`.  A missing `job_id` makes the call a
no-op. -/
def update_job_status (js : JobState) (jobId : String) (st : ProcessingStatus)
    (msg : String) (chunksCreated : Option Nat) (errorDetails : Option String) :
    JobState :=
  if (js.jobs.find? fun kv => kv.1 == jobId).isSome then
    { jobs := js.jobs.map fun kv =>
        if kv.1 == jobId then
          (kv.1, applyUpdate st msg chunksCreated errorDetails kv.2)
        else kv
      trace := js.trace ++ [st] }
  else js

/-- `self.processing_jobs.get(job_id)` — `RAGService.get_processing_job`. -/
def get_processing_job (js : JobState) (jobId : String) : Option ProcessingJob :=
  (js.jobs.find? fun kv => kv.1 == jobId).map fun kv => kv.2

/-! ## Background ingestion (`RAGService.process_document_background`) -/

/-- The progress message of one batch round (`tp` = `total_processed`). -/
def progressMsg (tp batchLen total : Nat) : String :=
  "Processing chunks " ++ toString (tp + 1) ++ "-" ++
    toString (min (tp + batchLen) total) ++ " of " ++ toString total

/-- The `for i in range(0, len(chunks), batch_size)` loop with
`batch_size = 5`: each round posts a PROCESSING progress update, then inserts
the next (up to) 5 chunks; a raised embedding call aborts the loop and is
handled by the caller's `except` (committed inserts stay).  The
`await asyncio.sleep(0.5)` pacing has no modelled effect. -/
def processBatches (embed : String → Except String (List Int))
    (jobId path : String) (total : Nat) :
    JobState → Store → List String → Nat → JobState × Store × Option String
  | js, store, [], _ => (js, store, none)
  | js, store, c :: rest, tp =>
    let batch := (c :: rest).take 5
    let js' := update_job_status js jobId .processing
      (progressMsg tp batch.length total) none none
    match insertSeq embed path store batch with
    | (store', some e) => (js', store', some e)
    | (store', none) =>
      processBatches embed jobId path total js' store' ((c :: rest).drop 5)
        (tp + batch.length)
  termination_by _ _ l _ => l.length
  decreasing_by simp [List.length_drop]; omega

/-- `RAGService.process_document_background`.  External collaborators are
explicit: `processFileResult` is the outcome of
`DocumentProcessor().process_file(file_content, file_name)` (`.error e` = it
raised with message `e`) and `embed` is the embedding provider.  Returns the
job table and the committed store when the coroutine finishes. -/
def process_document_background (embed : String → Except String (List Int))
    (js : JobState) (store : Store) (jobId fileName : String)
    (processFileResult : Except String (List String)) (replaceExisting : Bool) :
    JobState × Store :=
  let js₁ := update_job_status js jobId .processing
    "Extracting text from document..." none none
  match processFileResult with
  | .error e =>
    (update_job_status js₁ jobId .failed ("Processing failed: " ++ e)
      none (some e), store)
  | .ok chunks =>
    if chunks.isEmpty then
      (update_job_status js₁ jobId .failed
        "No text content could be extracted from file"
        none (some "File appears to be empty or unreadable"), store)
    else
      let js₂ := update_job_status js₁ jobId .processing
        ("Creating vector embeddings for " ++ toString chunks.length ++
          " text chunks...") none none
      if 0 < get_document_vector_count store fileName ∧ replaceExisting = false then
        (update_job_status js₂ jobId .failed
          ("Document already exists with " ++
            toString (get_document_vector_count store fileName) ++ " vectors")
          none (some "Use replace_existing=true to overwrite existing document"),
          store)
      else
        let store₁ := if replaceExisting then delete_source_file store fileName
          else store
        match processBatches embed jobId fileName chunks.length js₂ store₁ chunks 0 with
        | (js₃, store₂, none) =>
          (update_job_status js₃ jobId .completed
            ("Document processed successfully. Created " ++
              toString chunks.length ++ " searchable chunks.")
            (some chunks.length) none, store₂)
        | (js₃, store₂, some e) =>
          (update_job_status js₃ jobId .failed ("Processing failed: " ++ e)
            none (some e), store₂)

/-! ## Synchronous upload path (`upload_and_vectorize_file_sync`,
`src/app/api/rag.py:116-172`) and upsert -/

/-- `RAGService.insert_document_with_chunks`: optional delete-first, then a
silent skip (a printed warning, no error) when the document already exists
with vectors and `replace_existing` is not set, otherwise sequential
insertion.  The second component is a raised embedding error, if any;
committed inserts stay either way. -/
def insert_document_with_chunks (embed : String → Except String (List Int))
    (store : Store) (path : String) (chunks : List String)
    (replaceExisting : Bool) : Store × Option String :=
  let store₀ := if replaceExisting then delete_source_file store path else store
  let skip : Bool :=
    match findFile store₀ path with
    | some f =>
      decide
        (0 < (store₀.vectors.filter fun v => v.source_file_id == f.id).length) &&
        !replaceExisting
    | none => false
  if skip then (store₀, none)
  else insertSeq embed path store₀ chunks

/-- Return value of `RAGService.upsert_document_with_chunks` (its result
dict), plus the committed store and any raised error. -/
structure UpsertOutcome where
  store : Store
  err : Option String
  action : String
  chunks_count : Nat
  previous_vector_count : Nat
deriving DecidableEq

/-- `RAGService.upsert_document_with_chunks`: delete first when the document
already has vectors, then insert through `insert_document_with_chunks` with
`replace_existing=False`. -/
def upsert_document_with_chunks (embed : String → Except String (List Int))
    (store : Store) (path : String) (chunks : List String) : UpsertOutcome :=
  let existing := get_document_vector_count store path
  let store₁ := if 0 < existing then delete_source_file store path else store
  let action := if 0 < existing then "replaced" else "created"
  let res := insert_document_with_chunks embed store₁ path chunks false
  ⟨res.1, res.2, action, chunks.length, existing⟩

/-- JSON body of a successful `upload_and_vectorize_file_sync` response. -/
structure SyncResult where
  action : String
  file_path : String
  chunks_count : Option Nat
  previous_vector_count : Option Nat
  existing_vector_count : Option Nat
deriving DecidableEq

/-- `upload_and_vectorize_file_sync`, from the point where the uploaded
bytes have been read.  `processFileResult` is the outcome of
`doc_processor.process_file` (`.error e` = it raised, → HTTP 400).  First
component: the HTTP-level outcome (`.error` = a 400/500 error response,
`.ok` = the success body; note the existing-document case returns a
*success* body with `action = "skipped"`).  Second component: the committed
store — kept even for error responses, since raised insert errors do not
roll back already-committed chunks. -/
def upload_and_vectorize_file_sync (embed : String → Except String (List Int))
    (store : Store) (fileName : String)
    (processFileResult : Except String (List String)) (replaceExisting : Bool) :
    Except String SyncResult × Store :=
  match processFileResult with
  | .error e => (.error e, store)
  | .ok chunks =>
    if chunks.isEmpty then
      (.error "No text content could be extracted from file", store)
    else if 0 < get_document_vector_count store fileName ∧
        replaceExisting = false then
      (.ok { action := "skipped", file_path := fileName, chunks_count := none,
             previous_vector_count := none,
             existing_vector_count :=
               some (get_document_vector_count store fileName) },
        store)
    else if replaceExisting then
      let u := upsert_document_with_chunks embed store fileName chunks
      match u.err with
      | some e => (.error e, u.store)
      | none =>
        (.ok { action := u.action, file_path := fileName,
               chunks_count := some u.chunks_count,
               previous_vector_count := some u.previous_vector_count,
               existing_vector_count := none }, u.store)
    else
      match insert_document_with_chunks embed store fileName chunks false with
      | (s', some e) => (.error e, s')
      | (s', none) =>
        (.ok { action := "created", file_path := fileName,
               chunks_count := some chunks.length,
               previous_vector_count := none,
               existing_vector_count := none }, s')

/-! ## Similarity search (`RAGService.search_similar_vectors`,
`src/app/services/rag_service.py:267-330`) -/

/-- The SQL expression `1 - (vector_data <=> query) / 2.0` of the search
queries and of the `cosine_similarity` SQL function: `d v` is the cosine
distance of stored embedding `v` from the (fixed) query embedding, kept
abstract; similarity values are rational. -/
def similarity (d : List Int → ℚ) (v : List Int) : ℚ := 1 - d v / 2

/-- `FROM vectors v JOIN source_files s ON s.id = v.source_file_id`. -/
def ragJoin (store : Store) : List (VectorRow × SourceFile) :=
  store.vectors.flatMap fun v =>
    (store.files.filter fun f => f.id == v.source_file_id).map fun f => (v, f)

/-- `ORDER BY vector_data <=> query` (distance ascending). -/
def ragDistLe (d : List Int → ℚ) (a b : VectorRow × SourceFile) : Prop :=
  d a.1.vector_data ≤ d b.1.vector_data

instance (d : List Int → ℚ) : DecidableRel (ragDistLe d) := fun a b =>
  inferInstanceAs (Decidable (d a.1.vector_data ≤ d b.1.vector_data))

instance (d : List Int → ℚ) : IsTotal (VectorRow × SourceFile) (ragDistLe d) :=
  ⟨fun _ _ => le_total _ _⟩

instance (d : List Int → ℚ) : IsTrans (VectorRow × SourceFile) (ragDistLe d) :=
  ⟨fun _ _ _ => le_trans⟩

/-- The Python post-filter `float(row[3]) >= min_similarity`. -/
def ragKeep (d : List Int → ℚ) (minSim : ℚ) (r : VectorRow × SourceFile) :
    Bool :=
  decide (minSim ≤ similarity d r.1.vector_data)

/-- `VectorSearchResult` (`app/models/rag.py`). -/
structure VectorSearchResult where
  id : Nat
  file_path : String
  snippet : String
  similarity : ℚ
deriving DecidableEq

/-- One `VectorSearchResult(...)` built from a joined row. -/
def ragResult (d : List Int → ℚ) (r : VectorRow × SourceFile) :
    VectorSearchResult :=
  ⟨r.1.id, r.2.file_path, r.1.snippet, similarity d r.1.vector_data⟩

/-- `RAGService.search_similar_vectors`: SQL orders all joined rows by
distance ascending and truncates with `LIMIT :limit`; the Python list
comprehension then keeps rows whose similarity reaches `min_similarity`.
(This implementation has no `workspace_id` parameter.) -/
def search_similar_vectors (store : Store) (d : List Int → ℚ) (lim : Nat)
    (minSim : ℚ) : List VectorSearchResult :=
  (((List.insertionSort (ragDistLe d) (ragJoin store)).take lim).filter
    (ragKeep d minSim)).map (ragResult d)

/-! ## Workspace-scoped search (`VectorRepository.search_similar_vectors`,
`src/app/file/repository.py:68-113`, over the `app/file/db.py` schema) -/

/-- A `source_files` row of the `app/file/db.py` schema (workspace scoping;
`content_type`, `file_size` and timestamps are not read by search and are
not modelled). -/
structure FSourceFile where
  id : Nat
  file_path : String
  file_name : String
  workspace_id : String
deriving DecidableEq

/-- A `vectors` row of the `app/file/db.py` schema. -/
structure FVectorRow where
  id : Nat
  source_file_id : Nat
  vector_data : List Int
  content_text : String
deriving DecidableEq

/-- The store read by `VectorRepository.search_similar_vectors`. -/
structure FStore where
  files : List FSourceFile
  vectors : List FVectorRow
deriving DecidableEq

/-- `FROM vectors v JOIN source_files sf ON v.source_file_id = sf.id`. -/
def fJoin (store : FStore) : List (FVectorRow × FSourceFile) :=
  store.vectors.flatMap fun v =>
    (store.files.filter fun f => f.id == v.source_file_id).map fun f => (v, f)

/-- The optional workspace restriction: it is appended to the `WHERE` clause
only when `workspace_id` is truthy in Python (`if workspace_id:`) — both an
absent value (`none`) and the empty string are falsy and add no
restriction. -/
def wsTruthyMatch : Option String → FSourceFile → Bool
  | none, _ => true
  | some w, f => if w == "" then true else f.workspace_id == w

/-- The built `WHERE` clause: the similarity threshold always applies, plus
the optional workspace restriction. -/
def repoWhere (d : List Int → ℚ) (minSim : ℚ) (ws : Option String)
    (r : FVectorRow × FSourceFile) : Bool :=
  decide (minSim ≤ similarity d r.1.vector_data) && wsTruthyMatch ws r.2

/-- `ORDER BY similarity DESC`. -/
def repoSimGe (d : List Int → ℚ) (a b : FVectorRow × FSourceFile) : Prop :=
  similarity d b.1.vector_data ≤ similarity d a.1.vector_data

instance (d : List Int → ℚ) : DecidableRel (repoSimGe d) := fun a b =>
  inferInstanceAs (Decidable (similarity d b.1.vector_data ≤
    similarity d a.1.vector_data))

instance (d : List Int → ℚ) : IsTotal (FVectorRow × FSourceFile) (repoSimGe d) :=
  ⟨fun _ _ => le_total _ _⟩

instance (d : List Int → ℚ) : IsTrans (FVectorRow × FSourceFile) (repoSimGe d) :=
  ⟨fun _ _ _ h h' => le_trans h' h⟩

/-- `VectorSearchResult` (`app/file/model.py`). -/
structure FVectorSearchResult where
  vector_id : Nat
  similarity : ℚ
  content_text : String
  file_path : String
deriving DecidableEq

/-- One `VectorSearchResult(...)` of the repository search. -/
def repoResult (d : List Int → ℚ) (r : FVectorRow × FSourceFile) :
    FVectorSearchResult :=
  ⟨r.1.id, similarity d r.1.vector_data, r.1.content_text, r.2.file_path⟩

/-- `VectorRepository.search_similar_vectors`: `WHERE` filter (threshold and
optional workspace restriction), `ORDER BY similarity DESC`,
`LIMIT {limit}`. -/
def repo_search_similar_vectors (store : FStore) (d : List Int → ℚ)
    (ws : Option String) (lim : Nat) (minSim : ℚ) :
    List FVectorSearchResult :=
  ((List.insertionSort (repoSimGe d)
    ((fJoin store).filter (repoWhere d minSim ws))).take lim).map (repoResult d)

/-- The same query with the workspace clause never appended — the spec's
"no workspace restriction is applied" reading, for the comparison in C6. -/
def repo_search_unscoped (store : FStore) (d : List Int → ℚ) (lim : Nat)
    (minSim : ℚ) : List FVectorSearchResult :=
  ((List.insertionSort (repoSimGe d)
    ((fJoin store).filter fun r =>
      decide (minSim ≤ similarity d r.1.vector_data))).take lim).map
    (repoResult d)

/-- Database well-formedness maintained by the store operations: the unique
index on `file_path` (paths pairwise distinct) and the autoincrement
counters bounding every row id and foreign key. -/
def Store.wf (store : Store) : Prop :=
  store.files.Pairwise (fun f g => f.file_path ≠ g.file_path) ∧
  (∀ f ∈ store.files, f.id < store.nextFileId) ∧
  (∀ v ∈ store.vectors, v.source_file_id < store.nextFileId) ∧
  (∀ v ∈ store.vectors, v.id < store.nextVectorId)

/-- The vector rows created by inserting texts `cs` for file `fid` with the
total provider `ef`, ids counting up from `start`. -/
def mkRows (ef : String → List Int) (fid : Nat) :
    Nat → List String → List VectorRow
  | _, [] => []
  | start, c :: cs => ⟨start, fid, ef c, c⟩ :: mkRows ef fid (start + 1) cs

/-- Collapse consecutive duplicate statuses: the sequence of *distinct*
states an observer polling the job can see, in order. -/
def collapseStatuses : List ProcessingStatus → List ProcessingStatus
  | [] => []
  | [a] => [a]
  | a :: b :: rest =>
    if a = b then collapseStatuses (b :: rest)
    else a :: collapseStatuses (b :: rest)

/-! ## Theorems -/

/-- If the loop state satisfies `start = len - overlap`, `start < len` and
`len ≤ start + chunk_size`, the next iteration recreates the same state:
the loop never exits, whatever the fuel. -/
theorem chunkLoop_stuck (words : List String) (cs ov s : Nat)
    (h1 : s < words.length) (h2 : words.length ≤ s + cs)
    (h3 : words.length - ov = s) :
    ∀ fuel acc, chunkLoop words cs ov fuel s acc = none := by
  intro fuel
  induction fuel with
  | zero => intro acc; rfl
  | succ n ih =>
    intro acc
    have hmin : min (s + cs) words.length = words.length := Nat.min_eq_right h2
    simp only [chunkLoop, if_pos h1, hmin, h3]
    rw [if_neg (Nat.not_le.mpr h1)]
    exact ih _

/-- One non-final iteration of the loop. -/
theorem chunkLoop_step (words : List String) (cs ov fuel s : Nat)
    (acc : List String) (h1 : s < words.length)
    (h2 : ¬ words.length ≤ min (s + cs) words.length - ov) :
    chunkLoop words cs ov (fuel + 1) s acc =
      chunkLoop words cs ov fuel (min (s + cs) words.length - ov)
        (acc ++ [mkChunk words s (min (s + cs) words.length)]) := by
  simp only [chunkLoop, if_pos h1, if_neg h2]

/-- Helper for C1: from loop state `start = 2800` on a 5200-word list with
`chunk_size = 3000, overlap = 200`, the loop never returns. -/
theorem chunkLoop_5200_from_2800 (words : List String) (h : words.length = 5200) :
    ∀ fuel acc, chunkLoop words 3000 200 fuel 2800 acc = none := by
  intro fuel acc
  match fuel with
  | 0 => rfl
  | n + 1 =>
    rw [chunkLoop_step words 3000 200 n 2800 acc (by omega) (by rw [h]; decide)]
    exact chunkLoop_stuck words 3000 200 (min (2800 + 3000) words.length - 200)
      (by rw [h]; decide) (by rw [h]; decide) (by rw [h]; decide) n _

/-- C1.  The spec expects chunking a 5200-word text with
`chunk_size_words = 3000, overlap_words = 200` to return exactly 2 chunks
(words 1-3000 and 2801-5200).  The source loop instead never terminates on
such input: after the second window ends at word 5200 it sets
`start = 5200 - 200 = 5000 < 5200` and re-appends `words[5000:5200]` forever.
Formally: for every 5200-word list and every fuel, the loop has not returned. -/
theorem C1_chunk_5200_words_diverges (words : List String)
    (h : words.length = 5200) (fuel : Nat) :
    chunkLoop words 3000 200 fuel 0 [] = none := by
  match fuel with
  | 0 => rfl
  | n + 1 =>
    rw [chunkLoop_step words 3000 200 n 0 [] (by omega) (by rw [h]; decide)]
    have he : min (0 + 3000) words.length - 200 = 2800 := by rw [h]; decide
    rw [he]
    exact chunkLoop_5200_from_2800 words h n _

/-- Witness for C1 at the concrete 5200-word input `["w", ..., "w"]`. -/
theorem C1_chunk_5200_words_diverges_witness :
    chunkLoop (List.replicate 5200 "w") 3000 200 1000 0 [] = none :=
  C1_chunk_5200_words_diverges (List.replicate 5200 "w")
    (by rw [List.length_replicate]) 1000

/-- Helper for C2: from loop state `start = 3` on a 4-word list with
`chunk_size = 3, overlap = 1`, the loop never returns. -/
theorem chunkLoop_4_from_2 (words : List String) (h : words.length = 4) :
    ∀ fuel acc, chunkLoop words 3 1 fuel 2 acc = none := by
  intro fuel acc
  match fuel with
  | 0 => rfl
  | n + 1 =>
    rw [chunkLoop_step words 3 1 n 2 acc (by omega) (by rw [h]; decide)]
    exact chunkLoop_stuck words 3 1 (min (2 + 3) words.length - 1)
      (by rw [h]; decide) (by rw [h]; decide) (by rw [h]; decide) n _

/-- C2.  The spec's contract is that
`chunk(text, chunk_size_words, overlap_words)` always returns a finite chunk
sequence for `chunk_size_words ≥ 1` and `0 ≤ overlap_words < chunk_size_words`.
The source loop does not terminate whenever the text has more than
`chunk_size_words` words and `overlap_words ≥ 1`: here, for every 4-word list
with `chunk_size_words = 3, overlap_words = 1` (parameters inside the claimed
range) and every fuel, the loop has not returned. -/
theorem C2_chunk_loop_nonterminating (words : List String)
    (h : words.length = 4) (fuel : Nat) :
    chunkLoop words 3 1 fuel 0 [] = none := by
  match fuel with
  | 0 => rfl
  | n + 1 =>
    rw [chunkLoop_step words 3 1 n 0 [] (by omega) (by rw [h]; decide)]
    have he : min (0 + 3) words.length - 1 = 2 := by rw [h]; decide
    rw [he]
    exact chunkLoop_4_from_2 words h n _

/-- Witness for C2 at the concrete input `["a", "b", "c", "d"]`. -/
theorem C2_chunk_loop_nonterminating_witness :
    chunkLoop ["a", "b", "c", "d"] 3 1 1000 0 [] = none :=
  C2_chunk_loop_nonterminating ["a", "b", "c", "d"] (by decide) 1000

/-- C9.  PDF extraction tries pdfplumber first (when it yields
non-whitespace text the result is returned and is independent of the PyPDF2
collaborator); if pdfplumber raises or yields only whitespace, PyPDF2 is
tried; if PyPDF2 also raises or yields only whitespace the call fails with
the message naming image-based/encrypted/corrupted causes; and a raised
per-page extraction inside the page loop is skipped without affecting the
rest of the document. -/
theorem C9_pdf_extraction_strategy :
    (∀ (pages : List PageResult) (m2 m2' : Except String (List PageResult)),
      pyStrip (collectPages pages) ≠ "" →
        extract_text_from_pdf (.ok pages) m2 = .ok (pyStrip (collectPages pages)) ∧
        extract_text_from_pdf (.ok pages) m2 = extract_text_from_pdf (.ok pages) m2') ∧
    (∀ m2, extract_text_from_pdf (.error ()) m2 = pypdfStage m2) ∧
    (∀ (pages : List PageResult) (m2 : Except String (List PageResult)),
      pyStrip (collectPages pages) = "" →
        extract_text_from_pdf (.ok pages) m2 = pypdfStage m2) ∧
    (∀ e, pypdfStage (.error e) = .error (bothMethodsFailedMsg e)) ∧
    (∀ pages : List PageResult,
      pyStrip (collectPages pages) = "" →
        pypdfStage (.ok pages) = .error (bothMethodsFailedMsg noReadableTextMsg)) ∧
    (∀ p1 p2 : List PageResult,
      collectPages (p1 ++ Except.error () :: p2) = collectPages (p1 ++ p2)) := by
  refine ⟨?_, ?_, ?_, ?_, ?_, ?_⟩
  · intro pages m2 m2' h
    constructor
    · simp only [extract_text_from_pdf, if_pos h]
    · simp only [extract_text_from_pdf, if_pos h]
  · intro m2; rfl
  · intro pages m2 h
    simp only [extract_text_from_pdf, h]
    simp
  · intro e; rfl
  · intro pages h
    simp only [pypdfStage, h]
    simp
  · intro p1 p2
    simp only [collectPages, List.foldl_append, List.foldl_cons]
    rfl

/-- `update_job_status` rewrites exactly the addressed job. -/
theorem get_processing_job_update_self (js : JobState) (jobId : String)
    (st : ProcessingStatus) (msg : String) (cc : Option Nat)
    (ed : Option String) :
    get_processing_job (update_job_status js jobId st msg cc ed) jobId =
      (get_processing_job js jobId).map (applyUpdate st msg cc ed) := by
  unfold update_job_status get_processing_job
  cases hfind : js.jobs.find? fun kv => kv.1 == jobId with
  | none => simp [hfind]
  | some kv =>
    simp only [hfind, Option.isSome_some, if_true, Option.map_some]
    have hcomp :
        ((fun kv : String × ProcessingJob => kv.1 == jobId) ∘ fun kv =>
          if kv.1 == jobId then (kv.1, applyUpdate st msg cc ed kv.2) else kv) =
          fun kv : String × ProcessingJob => kv.1 == jobId := by
      funext x
      by_cases hx : (x.1 == jobId) = true
      · simp [Function.comp, hx]
      · simp [Function.comp, hx]
    rw [List.find?_map, hcomp, hfind]
    have hp : (kv.1 == jobId) = true :=
      @List.find?_some (String × ProcessingJob)
        (fun kv => kv.1 == jobId) kv js.jobs hfind
    have hpe : kv.1 = jobId := by simpa using hp
    simp [hpe]

/-- `update_job_status` keeps every job id present. -/
theorem get_processing_job_update_isSome (js : JobState) (jobId : String)
    (st : ProcessingStatus) (msg : String) (cc : Option Nat)
    (ed : Option String) :
    (get_processing_job (update_job_status js jobId st msg cc ed) jobId).isSome =
      (get_processing_job js jobId).isSome := by
  rw [get_processing_job_update_self]
  cases get_processing_job js jobId <;> rfl

/-- When the addressed job exists, `update_job_status` appends its status to
the observed trace. -/
theorem trace_update_of_isSome (js : JobState) (jobId : String)
    (st : ProcessingStatus) (msg : String) (cc : Option Nat)
    (ed : Option String) (h : (get_processing_job js jobId).isSome) :
    (update_job_status js jobId st msg cc ed).trace = js.trace ++ [st] := by
  unfold update_job_status
  unfold get_processing_job at h
  cases hfind : js.jobs.find? fun kv => kv.1 == jobId with
  | none => rw [hfind] at h; simp at h
  | some kv => simp [hfind]

/-- Splitting a sequential insertion run at a list append. -/
theorem insertSeq_append (embed : String → Except String (List Int))
    (path : String) (cs1 : List String) :
    ∀ (store : Store) (cs2 : List String),
      insertSeq embed path store (cs1 ++ cs2) =
        match insertSeq embed path store cs1 with
        | (s', none) => insertSeq embed path s' cs2
        | (s', some e) => (s', some e) := by
  induction cs1 with
  | nil => intro store cs2; rfl
  | cons c rest ih =>
    intro store cs2
    show insertSeq embed path store (c :: (rest ++ cs2)) = _
    simp only [insertSeq]
    cases insert_document_record embed store path c with
    | error e => rfl
    | ok s' => exact ih s' cs2

/-- With a provider that always succeeds, sequential insertion inserts every
chunk and reports no error. -/
theorem insertSeq_okEmbed (ef : String → List Int) (path : String) :
    ∀ (store : Store) (cs : List String),
      insertSeq (okEmbed ef) path store cs =
        (insertAllOk ef path store cs, none) := by
  intro store cs
  induction cs generalizing store with
  | nil => rfl
  | cons c rest ih =>
    simp only [insertSeq, insert_document_record, okEmbed, insertAllOk]
    exact ih _

/-- With a provider that raises on `bad` (not among the earlier chunks),
sequential insertion commits exactly the chunks before `bad` and reports the
raised error. -/
theorem insertSeq_failEmbed (ef : String → List Int) (bad e path : String)
    (cs1 cs2 : List String) (hbad : bad ∉ cs1) :
    ∀ store : Store,
      insertSeq (failEmbed ef bad e) path store (cs1 ++ bad :: cs2) =
        (insertAllOk ef path store cs1, some e) := by
  induction cs1 with
  | nil =>
    intro store
    simp [insertSeq, insert_document_record, failEmbed, insertAllOk]
  | cons c rest ih =>
    intro store
    have hc : c ≠ bad := fun hc => hbad (hc ▸ List.mem_cons_self c rest)
    have hrest : bad ∉ rest := fun hr => hbad (List.mem_cons_of_mem c hr)
    show insertSeq (failEmbed ef bad e) path store (c :: (rest ++ bad :: cs2)) = _
    simp only [insertSeq, insert_document_record, failEmbed,
      if_neg (fun h => hc h), insertAllOk]
    exact ih hrest _

/-- Bounded-length form of `processBatches_snd`. -/
theorem processBatches_snd_bounded (embed : String → Except String (List Int))
    (jobId path : String) (total : Nat) :
    ∀ (n : Nat) (cs : List String), cs.length ≤ n →
      ∀ (js : JobState) (store : Store) (tp : Nat),
        (processBatches embed jobId path total js store cs tp).2 =
          insertSeq embed path store cs := by
  intro n
  induction n with
  | zero =>
    intro cs hcs js store tp
    match cs with
    | [] => rw [processBatches]; rfl
  | succ m ih =>
    intro cs hcs js store tp
    match cs with
    | [] => rw [processBatches]; rfl
    | c :: rest =>
      rw [processBatches]
      have hsplit := insertSeq_append embed path ((c :: rest).take 5) store
        ((c :: rest).drop 5)
      rw [List.take_append_drop] at hsplit
      rw [hsplit]
      cases hseq : insertSeq embed path store ((c :: rest).take 5) with
      | mk store' err =>
        cases err with
        | none =>
          simp only
          exact ih ((c :: rest).drop 5)
            (by simp only [List.length_drop, List.length_cons] at *; omega)
            _ store' _
        | some e => simp only

/-- The store outcome and error of the batched loop coincide with plain
sequential insertion: batching only affects the progress messages. -/
theorem processBatches_snd (embed : String → Except String (List Int))
    (jobId path : String) (total : Nat) (cs : List String) (js : JobState)
    (store : Store) (tp : Nat) :
    (processBatches embed jobId path total js store cs tp).2 =
      insertSeq embed path store cs :=
  processBatches_snd_bounded embed jobId path total cs.length cs le_rfl js store tp

/-- Bounded-length form of `processBatches_trace`. -/
theorem processBatches_trace_bounded (embed : String → Except String (List Int))
    (jobId path : String) (total : Nat) :
    ∀ (n : Nat) (cs : List String), cs.length ≤ n →
      ∀ (js : JobState) (store : Store) (tp : Nat),
        (get_processing_job js jobId).isSome = true →
        ((get_processing_job
            (processBatches embed jobId path total js store cs tp).1
            jobId).isSome = true ∧
          ∃ k, (processBatches embed jobId path total js store cs tp).1.trace =
            js.trace ++ List.replicate k ProcessingStatus.processing) := by
  intro n
  induction n with
  | zero =>
    intro cs hcs js store tp hpres
    match cs with
    | [] => rw [processBatches]; exact ⟨hpres, 0, by simp⟩
  | succ m ih =>
    intro cs hcs js store tp hpres
    match cs with
    | [] => rw [processBatches]; exact ⟨hpres, 0, by simp⟩
    | c :: rest =>
      rw [processBatches]
      have hpres' : (get_processing_job (update_job_status js jobId .processing
          (progressMsg tp ((c :: rest).take 5).length total) none none)
          jobId).isSome = true := by
        rw [get_processing_job_update_isSome]; exact hpres
      have htr : (update_job_status js jobId .processing
          (progressMsg tp ((c :: rest).take 5).length total) none none).trace =
          js.trace ++ [ProcessingStatus.processing] :=
        trace_update_of_isSome _ _ _ _ _ _ hpres
      cases hseq : insertSeq embed path store ((c :: rest).take 5) with
      | mk store' err =>
        cases err with
        | none =>
          simp only
          obtain ⟨hp, k, hk⟩ := ih ((c :: rest).drop 5)
            (by simp only [List.length_drop, List.length_cons] at *; omega)
            _ store' (tp + ((c :: rest).take 5).length) hpres'
          refine ⟨hp, k + 1, ?_⟩
          rw [hk, htr]
          simp [List.replicate_succ, List.append_assoc]
        | some e =>
          simp only
          exact ⟨hpres', 1, by rw [htr]; rfl⟩

/-- The batched loop only ever posts PROCESSING updates: when the job is
present the observed trace grows by some number of PROCESSING entries, and
the job stays present. -/
theorem processBatches_trace (embed : String → Except String (List Int))
    (jobId path : String) (total : Nat) (cs : List String) (js : JobState)
    (store : Store) (tp : Nat)
    (hpres : (get_processing_job js jobId).isSome = true) :
    (get_processing_job (processBatches embed jobId path total js store cs tp).1
        jobId).isSome = true ∧
      ∃ k, (processBatches embed jobId path total js store cs tp).1.trace =
        js.trace ++ List.replicate k ProcessingStatus.processing :=
  processBatches_trace_bounded embed jobId path total cs.length cs le_rfl
    js store tp hpres

/-- A nonempty chunk list is not `isEmpty`. -/
theorem isEmpty_false_of_ne_nil {chunks : List String} (h : chunks ≠ []) :
    chunks.isEmpty = false := by
  cases chunks with
  | nil => exact absurd rfl h
  | cons a t => rfl

/-- The conflict branch of `process_document_background`: an existing
document with vectors and `replace_existing=False` short-circuits into a
FAILED update, leaving the store untouched. -/
theorem pdb_conflict (embed : String → Except String (List Int))
    (js : JobState) (store : Store) (jobId fileName : String)
    (chunks : List String) (h2 : chunks ≠ [])
    (hcnt : 0 < get_document_vector_count store fileName) :
    process_document_background embed js store jobId fileName (.ok chunks)
        false =
      (update_job_status
        (update_job_status
          (update_job_status js jobId .processing
            "Extracting text from document..." none none)
          jobId .processing
          ("Creating vector embeddings for " ++ toString chunks.length ++
            " text chunks...") none none)
        jobId .failed
        ("Document already exists with " ++
          toString (get_document_vector_count store fileName) ++ " vectors")
        none (some "Use replace_existing=true to overwrite existing document"),
        store) := by
  unfold process_document_background
  simp only [isEmpty_false_of_ne_nil h2, Bool.false_eq_true, if_false]
  rw [if_pos ⟨hcnt, trivial⟩]

/-- Concrete store for the C3 counterexample: `doc.txt` exists with one
stored vector. -/
def storeC3 : Store :=
  ⟨[⟨1, "doc.txt"⟩], [⟨1, 1, [], "old chunk"⟩], 2, 2⟩

/-- C3 counterexample.  The claim says ingesting an existing path with
`replace_existing=false` "always fails with ConflictError".  On the
synchronous upload path the code instead returns a *success* response with
`action = "skipped"` (HTTP 200, no error) — and leaves the store unchanged. -/
theorem C3_counterexample_sync_skip :
    document_exists storeC3 "doc.txt" = true ∧
    upload_and_vectorize_file_sync (okEmbed fun _ => []) storeC3 "doc.txt"
        (.ok ["new chunk"]) false =
      (.ok { action := "skipped", file_path := "doc.txt", chunks_count := none,
             previous_vector_count := none, existing_vector_count := some 1 },
        storeC3) := by
  constructor
  · rfl
  · rfl

/-- C3 (amended).  Ingesting a path that already has at least one stored
vector with `replace_existing=false` always leaves the store unchanged; the
background path marks the job FAILED (with the replace-existing hint as the
error detail) rather than raising a `ConflictError`, and the synchronous
path returns a success body with `action = "skipped"` instead of failing. -/
theorem C3_conflict_without_replace :
    (∀ (embed : String → Except String (List Int)) (js : JobState)
        (store : Store) (jobId fileName : String) (chunks : List String),
      (get_processing_job js jobId).isSome = true →
      chunks ≠ [] →
      0 < get_document_vector_count store fileName →
      (process_document_background embed js store jobId fileName (.ok chunks)
          false).2 = store ∧
      (get_processing_job
          (process_document_background embed js store jobId fileName
            (.ok chunks) false).1 jobId).map
          (fun j => (j.status, j.error_details)) =
        some (ProcessingStatus.failed,
          some "Use replace_existing=true to overwrite existing document")) ∧
    (∀ (embed : String → Except String (List Int)) (store : Store)
        (fileName : String) (chunks : List String),
      chunks ≠ [] →
      0 < get_document_vector_count store fileName →
      upload_and_vectorize_file_sync embed store fileName (.ok chunks) false =
        (.ok { action := "skipped", file_path := fileName,
               chunks_count := none, previous_vector_count := none,
               existing_vector_count :=
                 some (get_document_vector_count store fileName) },
          store)) := by
  constructor
  · intro embed js store jobId fileName chunks hpres h2 hcnt
    rw [pdb_conflict embed js store jobId fileName chunks h2 hcnt]
    refine ⟨rfl, ?_⟩
    rw [get_processing_job_update_self, get_processing_job_update_self,
      get_processing_job_update_self]
    cases hg : get_processing_job js jobId with
    | none => rw [hg] at hpres; simp at hpres
    | some j => simp [applyUpdate]
  · intro embed store fileName chunks h2 hcnt
    unfold upload_and_vectorize_file_sync
    simp only [isEmpty_false_of_ne_nil h2, Bool.false_eq_true, if_false]
    rw [if_pos ⟨hcnt, trivial⟩]

/-- Witness for C3's amended theorem at a concrete tracker, store and
chunk list. -/
theorem C3_conflict_without_replace_witness :
    ((process_document_background (okEmbed fun _ => [])
        (create_processing_job ⟨[], []⟩ "job1" "doc.txt") storeC3 "job1"
        "doc.txt" (.ok ["new chunk"]) false).2 = storeC3 ∧
      (get_processing_job
          (process_document_background (okEmbed fun _ => [])
            (create_processing_job ⟨[], []⟩ "job1" "doc.txt") storeC3 "job1"
            "doc.txt" (.ok ["new chunk"]) false).1 "job1").map
          (fun j => (j.status, j.error_details)) =
        some (ProcessingStatus.failed,
          some "Use replace_existing=true to overwrite existing document")) ∧
    upload_and_vectorize_file_sync (okEmbed fun _ => []) storeC3 "doc.txt"
        (.ok ["new chunk"]) false =
      (.ok { action := "skipped", file_path := "doc.txt", chunks_count := none,
             previous_vector_count := none,
             existing_vector_count :=
               some (get_document_vector_count storeC3 "doc.txt") },
        storeC3) :=
  ⟨C3_conflict_without_replace.1 (okEmbed fun _ => [])
      (create_processing_job ⟨[], []⟩ "job1" "doc.txt") storeC3 "job1"
      "doc.txt" ["new chunk"] (by rfl) (by decide) (by decide),
    C3_conflict_without_replace.2 (okEmbed fun _ => []) storeC3 "doc.txt"
      ["new chunk"] (by decide) (by decide)⟩

/-- `process_document_background` past the guards (non-empty chunks, no
conflict): optional delete, then the batch loop, then the terminal update. -/
theorem pdb_run (embed : String → Except String (List Int)) (js : JobState)
    (store : Store) (jobId fileName : String) (chunks : List String)
    (rep : Bool) (h2 : chunks ≠ [])
    (h3 : ¬(0 < get_document_vector_count store fileName ∧ rep = false)) :
    process_document_background embed js store jobId fileName (.ok chunks)
        rep =
      (match processBatches embed jobId fileName chunks.length
          (update_job_status
            (update_job_status js jobId .processing
              "Extracting text from document..." none none)
            jobId .processing
            ("Creating vector embeddings for " ++ toString chunks.length ++
              " text chunks...") none none)
          (if rep then delete_source_file store fileName else store)
          chunks 0 with
        | (js₃, store₂, none) =>
          (update_job_status js₃ jobId .completed
            ("Document processed successfully. Created " ++
              toString chunks.length ++ " searchable chunks.")
            (some chunks.length) none, store₂)
        | (js₃, store₂, some e) =>
          (update_job_status js₃ jobId .failed ("Processing failed: " ++ e)
            none (some e), store₂)) := by
  unfold process_document_background
  simp only [isEmpty_false_of_ne_nil h2, Bool.false_eq_true, if_false]
  rw [if_neg h3]

/-- C7.  (a) When every embedding call succeeds the job ends COMPLETED with
`chunks_created` equal to the chunk count, and the store holds every
inserted chunk.  (b) When extraction/chunking raises, the job ends FAILED
with the error detail and the store is untouched.  (c) When an embedding
call raises mid-run, the job ends FAILED with the error detail and exactly
the chunks committed before the failure remain — no rollback. -/
theorem C7_failure_and_success_handling :
    (∀ (ef : String → List Int) (js : JobState) (store : Store)
        (jobId fileName : String) (chunks : List String) (rep : Bool),
      (get_processing_job js jobId).isSome = true →
      chunks ≠ [] →
      ¬(0 < get_document_vector_count store fileName ∧ rep = false) →
      (get_processing_job
          (process_document_background (okEmbed ef) js store jobId fileName
            (.ok chunks) rep).1 jobId).map
          (fun j => (j.status, j.chunks_created)) =
        some (ProcessingStatus.completed, some chunks.length) ∧
      (process_document_background (okEmbed ef) js store jobId fileName
          (.ok chunks) rep).2 =
        insertAllOk ef fileName
          (if rep then delete_source_file store fileName else store) chunks) ∧
    (∀ (embed : String → Except String (List Int)) (js : JobState)
        (store : Store) (jobId fileName e : String) (rep : Bool),
      (get_processing_job js jobId).isSome = true →
      (get_processing_job
          (process_document_background embed js store jobId fileName
            (.error e) rep).1 jobId).map
          (fun j => (j.status, j.error_details)) =
        some (ProcessingStatus.failed, some e) ∧
      (process_document_background embed js store jobId fileName (.error e)
          rep).2 = store) ∧
    (∀ (ef : String → List Int) (js : JobState) (store : Store)
        (jobId fileName : String) (cs1 cs2 : List String) (bad err : String)
        (rep : Bool),
      (get_processing_job js jobId).isSome = true →
      bad ∉ cs1 →
      ¬(0 < get_document_vector_count store fileName ∧ rep = false) →
      (get_processing_job
          (process_document_background (failEmbed ef bad err) js store jobId
            fileName (.ok (cs1 ++ bad :: cs2)) rep).1 jobId).map
          (fun j => (j.status, j.error_details)) =
        some (ProcessingStatus.failed, some err) ∧
      (process_document_background (failEmbed ef bad err) js store jobId
          fileName (.ok (cs1 ++ bad :: cs2)) rep).2 =
        insertAllOk ef fileName
          (if rep then delete_source_file store fileName else store) cs1) := by
  refine ⟨?_, ?_, ?_⟩
  · intro ef js store jobId fileName chunks rep hpres h2 h3
    rw [pdb_run (okEmbed ef) js store jobId fileName chunks rep h2 h3]
    have hpres₂ : (get_processing_job
        (update_job_status
          (update_job_status js jobId .processing
            "Extracting text from document..." none none)
          jobId .processing
          ("Creating vector embeddings for " ++ toString chunks.length ++
            " text chunks...") none none) jobId).isSome = true := by
      rw [get_processing_job_update_isSome, get_processing_job_update_isSome]
      exact hpres
    cases hpb : processBatches (okEmbed ef) jobId fileName chunks.length
        (update_job_status
          (update_job_status js jobId .processing
            "Extracting text from document..." none none)
          jobId .processing
          ("Creating vector embeddings for " ++ toString chunks.length ++
            " text chunks...") none none)
        (if rep then delete_source_file store fileName else store)
        chunks 0 with
    | mk js₃ rest =>
      have hsnd := processBatches_snd (okEmbed ef) jobId fileName chunks.length
        chunks
        (update_job_status
          (update_job_status js jobId .processing
            "Extracting text from document..." none none)
          jobId .processing
          ("Creating vector embeddings for " ++ toString chunks.length ++
            " text chunks...") none none)
        (if rep then delete_source_file store fileName else store) 0
      rw [hpb, insertSeq_okEmbed] at hsnd
      have hpres₃ := (processBatches_trace (okEmbed ef) jobId fileName
        chunks.length chunks
        (update_job_status
          (update_job_status js jobId .processing
            "Extracting text from document..." none none)
          jobId .processing
          ("Creating vector embeddings for " ++ toString chunks.length ++
            " text chunks...") none none)
        (if rep then delete_source_file store fileName else store) 0
        hpres₂).1
      rw [hpb] at hpres₃
      obtain ⟨store₂, err⟩ := rest
      obtain ⟨hst, herr⟩ := Prod.mk.injEq _ _ _ _ ▸ hsnd
      subst herr
      constructor
      · rw [get_processing_job_update_self]
        cases hg : get_processing_job js₃ jobId with
        | none => rw [hg] at hpres₃; simp at hpres₃
        | some j => simp [applyUpdate]
      · exact hst
  · intro embed js store jobId fileName e rep hpres
    unfold process_document_background
    refine ⟨?_, rfl⟩
    rw [get_processing_job_update_self, get_processing_job_update_self]
    cases hg : get_processing_job js jobId with
    | none => rw [hg] at hpres; simp at hpres
    | some j => simp [applyUpdate]
  · intro ef js store jobId fileName cs1 cs2 bad err rep hpres hbad h3
    have h2 : cs1 ++ bad :: cs2 ≠ [] := by simp
    rw [pdb_run (failEmbed ef bad err) js store jobId fileName
      (cs1 ++ bad :: cs2) rep h2 h3]
    have hpres₂ : (get_processing_job
        (update_job_status
          (update_job_status js jobId .processing
            "Extracting text from document..." none none)
          jobId .processing
          ("Creating vector embeddings for " ++
            toString (cs1 ++ bad :: cs2).length ++
            " text chunks...") none none) jobId).isSome = true := by
      rw [get_processing_job_update_isSome, get_processing_job_update_isSome]
      exact hpres
    cases hpb : processBatches (failEmbed ef bad err) jobId fileName
        (cs1 ++ bad :: cs2).length
        (update_job_status
          (update_job_status js jobId .processing
            "Extracting text from document..." none none)
          jobId .processing
          ("Creating vector embeddings for " ++
            toString (cs1 ++ bad :: cs2).length ++
            " text chunks...") none none)
        (if rep then delete_source_file store fileName else store)
        (cs1 ++ bad :: cs2) 0 with
    | mk js₃ rest =>
      have hsnd := processBatches_snd (failEmbed ef bad err) jobId fileName
        (cs1 ++ bad :: cs2).length (cs1 ++ bad :: cs2)
        (update_job_status
          (update_job_status js jobId .processing
            "Extracting text from document..." none none)
          jobId .processing
          ("Creating vector embeddings for " ++
            toString (cs1 ++ bad :: cs2).length ++
            " text chunks...") none none)
        (if rep then delete_source_file store fileName else store) 0
      rw [hpb, insertSeq_failEmbed ef bad err fileName cs1 cs2 hbad] at hsnd
      have hpres₃ := (processBatches_trace (failEmbed ef bad err) jobId
        fileName (cs1 ++ bad :: cs2).length (cs1 ++ bad :: cs2)
        (update_job_status
          (update_job_status js jobId .processing
            "Extracting text from document..." none none)
          jobId .processing
          ("Creating vector embeddings for " ++
            toString (cs1 ++ bad :: cs2).length ++
            " text chunks...") none none)
        (if rep then delete_source_file store fileName else store) 0
        hpres₂).1
      rw [hpb] at hpres₃
      obtain ⟨store₂, errv⟩ := rest
      obtain ⟨hst, herr⟩ := Prod.mk.injEq _ _ _ _ ▸ hsnd
      subst herr
      constructor
      · rw [get_processing_job_update_self]
        cases hg : get_processing_job js₃ jobId with
        | none => rw [hg] at hpres₃; simp at hpres₃
        | some j => simp [applyUpdate]
      · exact hst

/-- Witness for C7 at a concrete tracker, store and chunk lists: a clean run
completes with 2 chunks; a run whose second embedding call raises stays
FAILED with the first chunk still stored. -/
theorem C7_failure_and_success_handling_witness :
    ((get_processing_job
        (process_document_background (okEmbed fun _ => [])
          (create_processing_job ⟨[], []⟩ "j1" "a.txt") ⟨[], [], 0, 0⟩ "j1"
          "a.txt" (.ok ["c1", "c2"]) false).1 "j1").map
        (fun j => (j.status, j.chunks_created)) =
      some (ProcessingStatus.completed, some 2) ∧
    (get_processing_job
        (process_document_background (failEmbed (fun _ => []) "c2" "boom")
          (create_processing_job ⟨[], []⟩ "j2" "a.txt") ⟨[], [], 0, 0⟩ "j2"
          "a.txt" (.ok (["c1"] ++ "c2" :: [])) false).1 "j2").map
        (fun j => (j.status, j.error_details)) =
      some (ProcessingStatus.failed, some "boom") ∧
    (process_document_background (failEmbed (fun _ => []) "c2" "boom")
        (create_processing_job ⟨[], []⟩ "j2" "a.txt") ⟨[], [], 0, 0⟩ "j2"
        "a.txt" (.ok (["c1"] ++ "c2" :: [])) false).2 =
      insertAllOk (fun _ => []) "a.txt"
        (if false then delete_source_file ⟨[], [], 0, 0⟩ "a.txt"
          else ⟨[], [], 0, 0⟩) ["c1"]) := by
  refine ⟨?_, ?_, ?_⟩
  · exact (C7_failure_and_success_handling.1 (fun _ => [])
      (create_processing_job ⟨[], []⟩ "j1" "a.txt") ⟨[], [], 0, 0⟩ "j1"
      "a.txt" ["c1", "c2"] false (by rfl) (by decide)
      (by intro h; exact absurd h.1 (by decide))).1
  · exact (C7_failure_and_success_handling.2.2 (fun _ => [])
      (create_processing_job ⟨[], []⟩ "j2" "a.txt") ⟨[], [], 0, 0⟩ "j2"
      "a.txt" ["c1"] [] "c2" "boom" false (by rfl) (by decide)
      (by intro h; exact absurd h.1 (by decide))).1
  · exact (C7_failure_and_success_handling.2.2 (fun _ => [])
      (create_processing_job ⟨[], []⟩ "j2" "a.txt") ⟨[], [], 0, 0⟩ "j2"
      "a.txt" ["c1"] [] "c2" "boom" false (by rfl) (by decide)
      (by intro h; exact absurd h.1 (by decide))).2

/-- Collapsing a PROCESSING run followed by a distinct terminal status. -/
theorem collapse_processing_run (t : ProcessingStatus)
    (ht : t ≠ ProcessingStatus.processing) :
    ∀ k, collapseStatuses
        (ProcessingStatus.processing ::
          (List.replicate k ProcessingStatus.processing ++ [t])) =
      [ProcessingStatus.processing, t] := by
  intro k
  induction k with
  | zero =>
    simp only [List.replicate, List.nil_append, collapseStatuses]
    rw [if_neg (fun h => ht h.symm)]
  | succ m ih =>
    rw [List.replicate_succ]
    show collapseStatuses (ProcessingStatus.processing ::
      ProcessingStatus.processing ::
      (List.replicate m ProcessingStatus.processing ++ [t])) = _
    rw [collapseStatuses]
    rw [if_pos rfl]
    exact ih

/-- Collapsing a full coordinator trace. -/
theorem collapse_full_trace (t : ProcessingStatus)
    (ht : t ≠ ProcessingStatus.processing) (k : Nat) :
    collapseStatuses
        (ProcessingStatus.pending :: ProcessingStatus.processing ::
          (List.replicate k ProcessingStatus.processing ++ [t])) =
      [ProcessingStatus.pending, ProcessingStatus.processing, t] := by
  show collapseStatuses (ProcessingStatus.pending ::
    ProcessingStatus.processing ::
    (List.replicate k ProcessingStatus.processing ++ [t])) = _
  rw [collapseStatuses]
  rw [if_neg (by intro h; cases h)]
  rw [collapse_processing_run t ht k]

/-- C8 counterexample.  The claim says no update can move a job out of a
terminal state.  `update_job_status` enforces nothing: updating a COMPLETED
job with PENDING succeeds and the job reads back as PENDING. -/
theorem C8_counterexample_tracker_allows_backward :
    (get_processing_job
        (update_job_status
          (update_job_status (create_processing_job ⟨[], []⟩ "j" "f") "j"
            .completed "done" (some 1) none)
          "j" .pending "again" none none) "j").map (fun j => j.status) =
      some ProcessingStatus.pending := by
  rfl

/-- C8 (amended).  The tracker itself does not enforce transitions — an
arbitrary update sequence can move a job backward or out of a terminal state
(see the counterexample).  For the update sequences the background
coordinator actually issues, monotonicity holds: starting from a freshly
created job, the applied status sequence with consecutive duplicates
collapsed is exactly PENDING, PROCESSING, COMPLETED or PENDING, PROCESSING,
FAILED — nothing follows the terminal status. -/
theorem C8_coordinator_status_monotonic
    (embed : String → Except String (List Int)) (store : Store)
    (jobId fileName : String) (pfr : Except String (List String))
    (rep : Bool) :
    collapseStatuses
        (process_document_background embed
          (create_processing_job ⟨[], []⟩ jobId fileName) store jobId
          fileName pfr rep).1.trace =
      [ProcessingStatus.pending, ProcessingStatus.processing,
        ProcessingStatus.completed] ∨
    collapseStatuses
        (process_document_background embed
          (create_processing_job ⟨[], []⟩ jobId fileName) store jobId
          fileName pfr rep).1.trace =
      [ProcessingStatus.pending, ProcessingStatus.processing,
        ProcessingStatus.failed] := by
  have hpres0 : (get_processing_job
      (create_processing_job ⟨[], []⟩ jobId fileName) jobId).isSome = true := by
    simp [get_processing_job, create_processing_job, List.find?]
  have htr0 : (create_processing_job ⟨[], []⟩ jobId fileName).trace =
      [ProcessingStatus.pending] := rfl
  set js0 := create_processing_job ⟨[], []⟩ jobId fileName with hjs0
  cases pfr with
  | error e =>
    right
    unfold process_document_background
    have hp1 : (get_processing_job (update_job_status js0 jobId .processing
        "Extracting text from document..." none none) jobId).isSome = true := by
      rw [get_processing_job_update_isSome]; exact hpres0
    rw [trace_update_of_isSome _ _ _ _ _ _ hp1,
      trace_update_of_isSome _ _ _ _ _ _ hpres0, htr0]
    rfl
  | ok chunks =>
    cases chunks with
    | nil =>
      right
      unfold process_document_background
      have hp1 : (get_processing_job (update_job_status js0 jobId .processing
          "Extracting text from document..." none none) jobId).isSome = true := by
        rw [get_processing_job_update_isSome]; exact hpres0
      simp only [List.isEmpty_nil, if_true]
      rw [trace_update_of_isSome _ _ _ _ _ _ hp1,
        trace_update_of_isSome _ _ _ _ _ _ hpres0, htr0]
      rfl
    | cons c rest =>
      have h2 : c :: rest ≠ ([] : List String) := by simp
      have hp1 : (get_processing_job (update_job_status js0 jobId .processing
          "Extracting text from document..." none none) jobId).isSome = true := by
        rw [get_processing_job_update_isSome]; exact hpres0
      have hp2 : (get_processing_job (update_job_status
          (update_job_status js0 jobId .processing
            "Extracting text from document..." none none) jobId .processing
          ("Creating vector embeddings for " ++ toString (c :: rest).length ++
            " text chunks...") none none) jobId).isSome = true := by
        rw [get_processing_job_update_isSome]; exact hp1
      have htr2 : (update_job_status
          (update_job_status js0 jobId .processing
            "Extracting text from document..." none none) jobId .processing
          ("Creating vector embeddings for " ++ toString (c :: rest).length ++
            " text chunks...") none none).trace =
          [ProcessingStatus.pending, ProcessingStatus.processing,
            ProcessingStatus.processing] := by
        rw [trace_update_of_isSome _ _ _ _ _ _ hp1,
          trace_update_of_isSome _ _ _ _ _ _ hpres0, htr0]
        rfl
      by_cases hc : 0 < get_document_vector_count store fileName ∧ rep = false
      · right
        obtain ⟨hcnt, hrep⟩ := hc
        subst hrep
        rw [pdb_conflict embed js0 store jobId fileName (c :: rest) h2 hcnt]
        rw [trace_update_of_isSome _ _ _ _ _ _ hp2, htr2]
        rfl
      · rw [pdb_run embed js0 store jobId fileName (c :: rest) rep h2 hc]
        obtain ⟨hp3, k, hk⟩ := processBatches_trace embed jobId fileName
          (c :: rest).length (c :: rest)
          (update_job_status
            (update_job_status js0 jobId .processing
              "Extracting text from document..." none none) jobId .processing
            ("Creating vector embeddings for " ++
              toString (c :: rest).length ++ " text chunks...") none none)
          (if rep then delete_source_file store fileName else store) 0 hp2
        rw [htr2] at hk
        cases hpb : processBatches embed jobId fileName (c :: rest).length
            (update_job_status
              (update_job_status js0 jobId .processing
                "Extracting text from document..." none none) jobId .processing
              ("Creating vector embeddings for " ++
                toString (c :: rest).length ++ " text chunks...") none none)
            (if rep then delete_source_file store fileName else store)
            (c :: rest) 0 with
        | mk js₃ rest2 =>
          rw [hpb] at hp3 hk
          obtain ⟨store₂, err⟩ := rest2
          cases err with
          | none =>
            left
            simp only
            rw [trace_update_of_isSome _ _ _ _ _ _ hp3, hk]
            have : ([ProcessingStatus.pending, ProcessingStatus.processing,
                ProcessingStatus.processing] ++
                List.replicate k ProcessingStatus.processing) ++
                [ProcessingStatus.completed] =
                ProcessingStatus.pending :: ProcessingStatus.processing ::
                  (List.replicate (k + 1) ProcessingStatus.processing ++
                    [ProcessingStatus.completed]) := by
              simp [List.replicate_succ]
            rw [this]
            exact collapse_full_trace ProcessingStatus.completed
              (by intro h; cases h) (k + 1)
          | some e =>
            right
            simp only
            rw [trace_update_of_isSome _ _ _ _ _ _ hp3, hk]
            have : ([ProcessingStatus.pending, ProcessingStatus.processing,
                ProcessingStatus.processing] ++
                List.replicate k ProcessingStatus.processing) ++
                [ProcessingStatus.failed] =
                ProcessingStatus.pending :: ProcessingStatus.processing ::
                  (List.replicate (k + 1) ProcessingStatus.processing ++
                    [ProcessingStatus.failed]) := by
              simp [List.replicate_succ]
            rw [this]
            exact collapse_full_trace ProcessingStatus.failed
              (by intro h; cases h) (k + 1)

/-- C5.  In both search implementations — `RAGService.search_similar_vectors`
(LIMIT before the Python threshold filter) and
`VectorRepository.search_similar_vectors` (`WHERE` threshold before LIMIT) —
the result list has at most `limit` entries, every returned similarity is at
least `min_similarity`, and results are in non-increasing similarity
order. -/
theorem C5_search_limit_threshold_order :
    (∀ (store : Store) (d : List Int → ℚ) (lim : Nat) (minSim : ℚ),
      (search_similar_vectors store d lim minSim).length ≤ lim ∧
      (∀ r ∈ search_similar_vectors store d lim minSim,
        minSim ≤ r.similarity) ∧
      (search_similar_vectors store d lim minSim).Pairwise
        (fun a b => b.similarity ≤ a.similarity)) ∧
    (∀ (store : FStore) (d : List Int → ℚ) (ws : Option String) (lim : Nat)
        (minSim : ℚ),
      (repo_search_similar_vectors store d ws lim minSim).length ≤ lim ∧
      (∀ r ∈ repo_search_similar_vectors store d ws lim minSim,
        minSim ≤ r.similarity) ∧
      (repo_search_similar_vectors store d ws lim minSim).Pairwise
        (fun a b => b.similarity ≤ a.similarity)) := by
  constructor
  · intro store d lim minSim
    refine ⟨?_, ?_, ?_⟩
    · unfold search_similar_vectors
      rw [List.length_map]
      calc (((List.insertionSort (ragDistLe d) (ragJoin store)).take
            lim).filter (ragKeep d minSim)).length
          ≤ ((List.insertionSort (ragDistLe d) (ragJoin store)).take
            lim).length := List.length_filter_le _ _
        _ ≤ lim := by rw [List.length_take]; exact min_le_left _ _
    · intro r hr
      unfold search_similar_vectors at hr
      obtain ⟨x, hx, hfx⟩ := List.mem_map.mp hr
      have hkeep : ragKeep d minSim x = true := (List.mem_filter.mp hx).2
      have : minSim ≤ similarity d x.1.vector_data := by
        unfold ragKeep at hkeep
        exact of_decide_eq_true hkeep
      rw [← hfx]
      exact this
    · unfold search_similar_vectors
      rw [List.pairwise_map]
      have hs : (List.insertionSort (ragDistLe d) (ragJoin store)).Pairwise
          (ragDistLe d) := List.sorted_insertionSort (ragDistLe d) _
      have ht : ((List.insertionSort (ragDistLe d) (ragJoin store)).take
          lim).Pairwise (ragDistLe d) :=
        List.Pairwise.sublist (List.take_sublist _ _) hs
      have hf : (((List.insertionSort (ragDistLe d) (ragJoin store)).take
          lim).filter (ragKeep d minSim)).Pairwise (ragDistLe d) :=
        List.Pairwise.sublist (List.filter_sublist _) ht
      refine hf.imp ?_
      intro a b hab
      unfold ragDistLe at hab
      show (ragResult d b).similarity ≤ (ragResult d a).similarity
      unfold ragResult similarity
      simp only
      linarith
  · intro store d ws lim minSim
    refine ⟨?_, ?_, ?_⟩
    · unfold repo_search_similar_vectors
      rw [List.length_map, List.length_take]
      exact min_le_left _ _
    · intro r hr
      unfold repo_search_similar_vectors at hr
      obtain ⟨x, hx, hfx⟩ := List.mem_map.mp hr
      have hmem : x ∈ List.insertionSort (repoSimGe d)
          ((fJoin store).filter (repoWhere d minSim ws)) :=
        List.mem_of_mem_take hx
      have hmem' : x ∈ (fJoin store).filter (repoWhere d minSim ws) :=
        (List.perm_insertionSort (repoSimGe d) _).subset hmem
      have hwhere : repoWhere d minSim ws x = true :=
        (List.mem_filter.mp hmem').2
      have : minSim ≤ similarity d x.1.vector_data := by
        unfold repoWhere at hwhere
        exact of_decide_eq_true (Bool.and_elim_left hwhere)
      rw [← hfx]
      exact this
    · unfold repo_search_similar_vectors
      rw [List.pairwise_map]
      have hs : (List.insertionSort (repoSimGe d)
          ((fJoin store).filter (repoWhere d minSim ws))).Pairwise
          (repoSimGe d) := List.sorted_insertionSort (repoSimGe d) _
      have ht := List.Pairwise.sublist (List.take_sublist lim _) hs
      refine ht.imp ?_
      intro a b hab
      exact hab

/-- Concrete rag-side store for the C5 witness. -/
def storeC5 : Store := ⟨[⟨1, "p"⟩], [⟨1, 1, [], "a"⟩], 2, 2⟩

/-- Concrete repository-side store for the C5 witness. -/
def fstoreC5 : FStore := ⟨[⟨1, "p", "p", "w1"⟩], [⟨1, 1, [], "a"⟩]⟩

/-- Witness for C5 at concrete stores, query distance and parameters. -/
theorem C5_search_limit_threshold_order_witness :
    ((search_similar_vectors storeC5 (fun _ => (0 : ℚ)) 5 0).length ≤ 5 ∧
      (∀ r ∈ search_similar_vectors storeC5 (fun _ => (0 : ℚ)) 5 0,
        (0 : ℚ) ≤ r.similarity) ∧
      (search_similar_vectors storeC5 (fun _ => (0 : ℚ)) 5 0).Pairwise
        (fun a b => b.similarity ≤ a.similarity)) ∧
    ((repo_search_similar_vectors fstoreC5 (fun _ => (0 : ℚ)) none 5
        0).length ≤ 5 ∧
      (∀ r ∈ repo_search_similar_vectors fstoreC5 (fun _ => (0 : ℚ)) none 5 0,
        (0 : ℚ) ≤ r.similarity) ∧
      (repo_search_similar_vectors fstoreC5 (fun _ => (0 : ℚ)) none 5
        0).Pairwise (fun a b => b.similarity ≤ a.similarity)) :=
  ⟨C5_search_limit_threshold_order.1 storeC5 (fun _ => (0 : ℚ)) 5 0,
    C5_search_limit_threshold_order.2 fstoreC5 (fun _ => (0 : ℚ)) none 5 0⟩

/-- Concrete store for the C6 counterexample: one file in workspace
`"other"`, one stored chunk. -/
def fstoreC6 : FStore :=
  ⟨[⟨1, "doc", "doc", "other"⟩], [⟨10, 1, [], "text"⟩]⟩

/-- C6 counterexample.  The claim says every search invoked with a
`workspace_id` only returns chunks of files in that workspace.  Python's
`if workspace_id:` treats the empty string as falsy, so a search invoked
with `workspace_id = ""` applies no restriction and returns the chunk of a
file whose workspace is `"other"`. -/
theorem C6_counterexample_empty_workspace :
    ¬ ∀ r ∈ repo_search_similar_vectors fstoreC6 (fun _ => (0 : ℚ)) (some "")
        5 0,
      ∃ f ∈ fstoreC6.files, f.file_path = r.file_path ∧
        f.workspace_id = "" := by
  have hkeep : repoWhere (fun _ => (0 : ℚ)) 0 (some "")
      (⟨10, 1, [], "text"⟩, ⟨1, "doc", "doc", "other"⟩) = true := by
    unfold repoWhere wsTruthyMatch
    rw [decide_eq_true (by unfold similarity; norm_num :
      (0 : ℚ) ≤ similarity (fun _ => (0 : ℚ)) [])]
    rfl
  have hres : repo_search_similar_vectors fstoreC6 (fun _ => (0 : ℚ))
      (some "") 5 0 =
      [repoResult (fun _ => (0 : ℚ))
        (⟨10, 1, [], "text"⟩, ⟨1, "doc", "doc", "other"⟩)] := by
    unfold repo_search_similar_vectors
    have hjoin : fJoin fstoreC6 =
        [(⟨10, 1, [], "text"⟩, ⟨1, "doc", "doc", "other"⟩)] := rfl
    rw [hjoin, List.filter_cons_of_pos hkeep]
    rfl
  intro h
  obtain ⟨f, hf, hpath, hws⟩ := h
    (repoResult (fun _ => (0 : ℚ))
      (⟨10, 1, [], "text"⟩, ⟨1, "doc", "doc", "other"⟩))
    (by rw [hres]; exact List.mem_singleton.mpr rfl)
  have hfe : f = ⟨1, "doc", "doc", "other"⟩ := by
    have : f ∈ [(⟨1, "doc", "doc", "other"⟩ : FSourceFile)] := hf
    simpa using this
  rw [hfe] at hws
  exact absurd hws (by decide)

/-- C6 (amended).  A search invoked with a *non-empty* `workspace_id`
returns only results built from joined rows whose owning file has exactly
that workspace id; a search with no `workspace_id` applies no workspace
restriction (it equals the unscoped query).  The empty string, being falsy
in Python, also applies no restriction — see the counterexample. -/
theorem C6_workspace_scoping :
    (∀ (store : FStore) (d : List Int → ℚ) (lim : Nat) (minSim : ℚ)
        (w : String), w ≠ "" →
      ∀ r ∈ repo_search_similar_vectors store d (some w) lim minSim,
        ∃ row ∈ fJoin store, row.2.workspace_id = w ∧ r = repoResult d row) ∧
    (∀ (store : FStore) (d : List Int → ℚ) (lim : Nat) (minSim : ℚ),
      repo_search_similar_vectors store d none lim minSim =
        repo_search_unscoped store d lim minSim) := by
  constructor
  · intro store d lim minSim w hw r hr
    unfold repo_search_similar_vectors at hr
    obtain ⟨x, hx, hfx⟩ := List.mem_map.mp hr
    have hmem : x ∈ List.insertionSort (repoSimGe d)
        ((fJoin store).filter (repoWhere d minSim (some w))) :=
      List.mem_of_mem_take hx
    have hmem' : x ∈ (fJoin store).filter (repoWhere d minSim (some w)) :=
      (List.perm_insertionSort (repoSimGe d) _).subset hmem
    have hjoin : x ∈ fJoin store := (List.mem_filter.mp hmem').1
    have hwhere : repoWhere d minSim (some w) x = true :=
      (List.mem_filter.mp hmem').2
    refine ⟨x, hjoin, ?_, hfx.symm⟩
    unfold repoWhere at hwhere
    have hws := Bool.and_elim_right hwhere
    have hwne : (w == "") = false := by
      cases hbe : w == "" with
      | false => rfl
      | true => exact absurd (by simpa using hbe) hw
    rw [wsTruthyMatch] at hws
    rw [hwne] at hws
    simp only [Bool.false_eq_true, if_false] at hws
    simpa using hws
  · intro store d lim minSim
    unfold repo_search_similar_vectors repo_search_unscoped
    have : repoWhere d minSim none =
        fun r : FVectorRow × FSourceFile =>
          decide (minSim ≤ similarity d r.1.vector_data) := by
      funext r
      unfold repoWhere wsTruthyMatch
      exact Bool.and_true _
    rw [this]

/-- Concrete store for the C6 witness: one file in workspace `"wsA"`. -/
def fstoreC6w : FStore :=
  ⟨[⟨1, "p", "p", "wsA"⟩], [⟨5, 1, [], "t"⟩]⟩

/-- Witness for C6's amended theorem at a concrete store and workspace. -/
theorem C6_workspace_scoping_witness :
    (∀ r ∈ repo_search_similar_vectors fstoreC6w (fun _ => (0 : ℚ))
        (some "wsA") 3 0,
      ∃ row ∈ fJoin fstoreC6w, row.2.workspace_id = "wsA" ∧
        r = repoResult (fun _ => (0 : ℚ)) row) ∧
    repo_search_similar_vectors fstoreC6w (fun _ => (0 : ℚ)) none 3 0 =
      repo_search_unscoped fstoreC6w (fun _ => (0 : ℚ)) 3 0 :=
  ⟨C6_workspace_scoping.1 fstoreC6w (fun _ => (0 : ℚ)) 3 0 "wsA" (by decide),
    C6_workspace_scoping.2 fstoreC6w (fun _ => (0 : ℚ)) 3 0⟩

/-- In a list sorted by distance ascending, if more than `n` entries pass
the similarity threshold then *every* entry of the first `n` passes it: a
chunk can only be displaced within the window by a chunk of smaller or equal
distance, i.e. of at least equal similarity. -/
theorem take_all_keep (d : List Int → ℚ) (minSim : ℚ) :
    ∀ (l : List (VectorRow × SourceFile)) (n : Nat),
      l.Pairwise (ragDistLe d) →
      n < (l.filter (ragKeep d minSim)).length →
      ∀ x ∈ l.take n, ragKeep d minSim x = true := by
  intro l
  induction l with
  | nil => intro n _ h; simp at h
  | cons a t ih =>
    intro n hp h
    match n with
    | 0 => intro x hx; simp at hx
    | m + 1 =>
      intro x hx
      have hpa : ∀ y ∈ t, ragDistLe d a y := (List.pairwise_cons.mp hp).1
      have hpt : t.Pairwise (ragDistLe d) := (List.pairwise_cons.mp hp).2
      by_cases hka : ragKeep d minSim a = true
      · rw [List.take_succ_cons] at hx
        rcases List.mem_cons.mp hx with hxa | hxt
        · rw [hxa]; exact hka
        · refine ih m hpt ?_ x hxt
          rw [List.filter_cons_of_pos hka] at h
          simp only [List.length_cons] at h
          omega
      · exfalso
        have hall : ∀ y ∈ t, ¬ ragKeep d minSim y = true := by
          intro y hy hky
          apply hka
          have h1 : minSim ≤ similarity d y.1.vector_data :=
            of_decide_eq_true hky
          have h2 : d a.1.vector_data ≤ d y.1.vector_data := hpa y hy
          unfold ragKeep
          apply decide_eq_true
          unfold similarity at h1 ⊢
          linarith
        have hnil : (a :: t).filter (ragKeep d minSim) = [] := by
          rw [List.filter_cons_of_neg (by simpa using hka)]
          exact List.filter_eq_nil_iff.mpr hall
        rw [hnil] at h
        simp at h

/-- When more than `limit` joined rows pass the threshold, the LIMIT window
consists entirely of passing rows, so the search returns exactly `limit`
results. -/
theorem ragSearch_length_of_lt_passing (store : Store) (d : List Int → ℚ)
    (lim : Nat) (minSim : ℚ)
    (h : lim < ((ragJoin store).filter (ragKeep d minSim)).length) :
    (search_similar_vectors store d lim minSim).length = lim := by
  unfold search_similar_vectors
  rw [List.length_map]
  have hperm : List.Perm (List.insertionSort (ragDistLe d) (ragJoin store))
      (ragJoin store) := List.perm_insertionSort _ _
  have hlt : lim < ((List.insertionSort (ragDistLe d)
      (ragJoin store)).filter (ragKeep d minSim)).length := by
    rw [(List.Perm.filter (ragKeep d minSim) hperm).length_eq]
    exact h
  have hall : ∀ x ∈ List.take lim
      (List.insertionSort (ragDistLe d) (ragJoin store)),
      ragKeep d minSim x = true := by
    intro x hx
    exact take_all_keep d minSim _ lim
      (List.sorted_insertionSort (ragDistLe d) _) hlt x hx
  rw [List.filter_eq_self.mpr hall, List.length_take]
  have hlen : lim < (List.insertionSort (ragDistLe d)
      (ragJoin store)).length :=
    lt_of_lt_of_le hlt (List.length_filter_le _ _)
  omega

/-- C10 counterexample.  The claim asserts a store state and query exist for
which the search returns *fewer* than `limit` results even though more than
`limit` stored chunks are at or above the threshold.  No such state exists:
the filter predicate is monotone in the sort key, so the LIMIT window can
only displace an above-threshold chunk with another above-threshold chunk. -/
theorem C10_counterexample_no_displacement :
    ¬ ∃ (store : Store) (d : List Int → ℚ) (lim : Nat) (minSim : ℚ),
        lim < ((ragJoin store).filter (ragKeep d minSim)).length ∧
        (search_similar_vectors store d lim minSim).length < lim := by
  rintro ⟨store, d, lim, minSim, h1, h2⟩
  rw [ragSearch_length_of_lt_passing store d lim minSim h1] at h2
  exact lt_irrefl lim h2

/-- C10 (amended).  In `RAGService.search_similar_vectors` truncation to
`limit` is indeed applied before the `min_similarity` filter, but a chunk
inside the LIMIT window can only be displaced by a chunk of at least equal
similarity; hence whenever more than `limit` stored chunks have similarity
`≥ min_similarity`, the search returns exactly `limit` results — never
fewer. -/
theorem C10_early_truncation_never_starves (store : Store)
    (d : List Int → ℚ) (lim : Nat) (minSim : ℚ)
    (h : lim < ((ragJoin store).filter (ragKeep d minSim)).length) :
    (search_similar_vectors store d lim minSim).length = lim :=
  ragSearch_length_of_lt_passing store d lim minSim h

/-- Concrete store for the C10 witness: one file, two stored chunks. -/
def storeC10 : Store :=
  ⟨[⟨1, "p"⟩], [⟨1, 1, [], "a"⟩, ⟨2, 1, [], "b"⟩], 2, 3⟩

/-- Witness for C10's amended theorem: two chunks above the threshold,
`limit = 1`, and exactly one result. -/
theorem C10_early_truncation_never_starves_witness :
    1 < ((ragJoin storeC10).filter (ragKeep (fun _ => (0 : ℚ)) 0)).length ∧
    (search_similar_vectors storeC10 (fun _ => (0 : ℚ)) 1 0).length = 1 := by
  have hk : ∀ v : VectorRow × SourceFile,
      v ∈ ragJoin storeC10 → ragKeep (fun _ => (0 : ℚ)) 0 v = true := by
    intro v _
    unfold ragKeep
    exact decide_eq_true (by unfold similarity; norm_num)
  have hlen : 1 < ((ragJoin storeC10).filter
      (ragKeep (fun _ => (0 : ℚ)) 0)).length := by
    rw [List.filter_eq_self.mpr hk]
    decide
  exact ⟨hlen,
    C10_early_truncation_never_starves storeC10 (fun _ => (0 : ℚ)) 1 0 hlen⟩

/-- The snippets of the created rows are the inserted texts, in order. -/
theorem mkRows_snippets (ef : String → List Int) (fid : Nat) :
    ∀ (cs : List String) (start : Nat),
      (mkRows ef fid start cs).map (fun v => v.snippet) = cs := by
  intro cs
  induction cs with
  | nil => intro start; rfl
  | cons c rest ih =>
    intro start
    simp only [mkRows, List.map_cons, ih]

/-- Every created row carries the given foreign key. -/
theorem mkRows_sfid (ef : String → List Int) (fid : Nat) :
    ∀ (cs : List String) (start : Nat) (v : VectorRow),
      v ∈ mkRows ef fid start cs → v.source_file_id = fid := by
  intro cs
  induction cs with
  | nil => intro start v hv; simp [mkRows] at hv
  | cons c rest ih =>
    intro start v hv
    rcases List.mem_cons.mp hv with hv | hv
    · rw [hv]
    · exact ih (start + 1) v hv

/-- Every created row id is at least the starting id. -/
theorem mkRows_id_ge (ef : String → List Int) (fid : Nat) :
    ∀ (cs : List String) (start : Nat) (v : VectorRow),
      v ∈ mkRows ef fid start cs → start ≤ v.id := by
  intro cs
  induction cs with
  | nil => intro start v hv; simp [mkRows] at hv
  | cons c rest ih =>
    intro start v hv
    rcases List.mem_cons.mp hv with hv | hv
    · rw [hv]
    · exact le_trans (Nat.le_succ start) (ih (start + 1) v hv)

/-- `delete_source_file` never touches the autoincrement counters. -/
theorem delete_counters (store : Store) (path : String) :
    (delete_source_file store path).nextFileId = store.nextFileId ∧
      (delete_source_file store path).nextVectorId = store.nextVectorId := by
  unfold delete_source_file
  cases findFile store path with
  | none => exact ⟨rfl, rfl⟩
  | some f => exact ⟨rfl, rfl⟩

/-- Two rows of a path-unique file list with the same path coincide. -/
theorem pairwise_path_unique {l : List SourceFile}
    (hp : l.Pairwise (fun f g => f.file_path ≠ g.file_path)) :
    ∀ {A f : SourceFile}, A ∈ l → f ∈ l → A.file_path = f.file_path →
      A = f := by
  induction l with
  | nil => intro A f hA _ _; simp at hA
  | cons b t ih =>
    intro A f hA hf heq
    have hb : ∀ y ∈ t, b.file_path ≠ y.file_path := (List.pairwise_cons.mp hp).1
    have hpt := (List.pairwise_cons.mp hp).2
    rcases List.mem_cons.mp hA with hA | hA <;>
      rcases List.mem_cons.mp hf with hf | hf
    · rw [hA, hf]
    · exact absurd (hA ▸ heq) (hb f hf)
    · exact absurd (hf ▸ heq).symm (hb A hA)
    · exact ih hpt hA hf heq

/-- After deleting `path` from a path-unique store, no file with that path
remains. -/
theorem delete_no_path (store : Store) (path : String)
    (hp : store.files.Pairwise (fun f g => f.file_path ≠ g.file_path)) :
    ∀ f ∈ (delete_source_file store path).files,
      (f.file_path == path) = false := by
  intro f hf
  unfold delete_source_file at hf
  cases hfind : findFile store path with
  | none =>
    rw [hfind] at hf
    have := List.find?_eq_none.mp hfind f hf
    cases hbe : f.file_path == path with
    | false => rfl
    | true => exact absurd hbe this
  | some A =>
    rw [hfind] at hf
    simp only at hf
    have hfm := List.mem_filter.mp hf
    have hfin : f ∈ store.files := hfm.1
    have hfid : (f.id != A.id) = true := hfm.2
    have hAmem : A ∈ store.files := List.mem_of_find?_eq_some hfind
    have hApath : A.file_path = path := by
      simpa using (@List.find?_some SourceFile
        (fun g => g.file_path == path) A store.files hfind)
    cases hbe : f.file_path == path with
    | false => rfl
    | true =>
      exfalso
      have hfpath : f.file_path = path := by simpa using hbe
      have : A = f := pairwise_path_unique hp hAmem hfin
        (by rw [hApath, hfpath])
      rw [this] at hfid
      simp at hfid

/-- Deleting preserves well-formedness. -/
theorem wf_delete (store : Store) (path : String) (h : store.wf) :
    (delete_source_file store path).wf := by
  obtain ⟨h1, h2, h3, h4⟩ := h
  unfold delete_source_file
  cases findFile store path with
  | none => exact ⟨h1, h2, h3, h4⟩
  | some A =>
    refine ⟨List.Pairwise.sublist (List.filter_sublist _) h1, ?_, ?_, ?_⟩
    · intro f hf; exact h2 f (List.mem_filter.mp hf).1
    · intro v hv; exact h3 v (List.mem_filter.mp hv).1
    · intro v hv; exact h4 v (List.mem_filter.mp hv).1

/-- One committed insert preserves well-formedness. -/
theorem wf_insertRecordOk (store : Store) (path content : String)
    (v : List Int) (h : store.wf) : (insertRecordOk store path content v).wf := by
  obtain ⟨h1, h2, h3, h4⟩ := h
  unfold insertRecordOk
  cases hfind : findFile store path with
  | some f =>
    refine ⟨h1, h2, ?_, ?_⟩
    · intro w hw
      rcases List.mem_append.mp hw with hw | hw
      · exact h3 w hw
      · have : w = ⟨store.nextVectorId, f.id, v, content⟩ := by simpa using hw
        rw [this]
        exact h2 f (List.mem_of_find?_eq_some hfind)
    · intro w hw
      rcases List.mem_append.mp hw with hw | hw
      · exact lt_trans (h4 w hw) (Nat.lt_succ_self _)
      · have : w = ⟨store.nextVectorId, f.id, v, content⟩ := by simpa using hw
        rw [this]
        exact Nat.lt_succ_self _
  | none =>
    refine ⟨?_, ?_, ?_, ?_⟩
    · rw [List.pairwise_append]
      refine ⟨h1, List.pairwise_singleton _ _, ?_⟩
      intro a ha b hb
      have hb' : b = ⟨store.nextFileId, path⟩ := by simpa using hb
      rw [hb']
      intro hcon
      have := List.find?_eq_none.mp hfind a ha
      exact this (by simpa using hcon)
    · intro f hf
      rcases List.mem_append.mp hf with hf | hf
      · exact lt_trans (h2 f hf) (Nat.lt_succ_self _)
      · have : f = ⟨store.nextFileId, path⟩ := by simpa using hf
        rw [this]
        exact Nat.lt_succ_self _
    · intro w hw
      rcases List.mem_append.mp hw with hw | hw
      · exact lt_trans (h3 w hw) (Nat.lt_succ_self _)
      · have : w = ⟨store.nextVectorId, store.nextFileId, v, content⟩ := by
          simpa using hw
        rw [this]
        exact Nat.lt_succ_self _
    · intro w hw
      rcases List.mem_append.mp hw with hw | hw
      · exact lt_trans (h4 w hw) (Nat.lt_succ_self _)
      · have : w = ⟨store.nextVectorId, store.nextFileId, v, content⟩ := by
          simpa using hw
        rw [this]
        exact Nat.lt_succ_self _

/-- A run of committed inserts preserves well-formedness. -/
theorem wf_insertAllOk (ef : String → List Int) (path : String) :
    ∀ (cs : List String) (store : Store), store.wf →
      (insertAllOk ef path store cs).wf := by
  intro cs
  induction cs with
  | nil => intro store h; exact h
  | cons c rest ih =>
    intro store h
    exact ih _ (wf_insertRecordOk store path c (ef c) h)

/-- Inserting into a store whose `path` row is `A` only appends vector rows
for `A`. -/
theorem insertAllOk_existing (ef : String → List Int) (path : String)
    (A : SourceFile) :
    ∀ (cs : List String) (u : Store), findFile u path = some A →
      insertAllOk ef path u cs =
        { files := u.files
          vectors := u.vectors ++ mkRows ef A.id u.nextVectorId cs
          nextFileId := u.nextFileId
          nextVectorId := u.nextVectorId + cs.length } := by
  intro cs
  induction cs with
  | nil =>
    intro u hA
    show u = _
    simp [mkRows]
  | cons c rest ih =>
    intro u hA
    show insertAllOk ef path (insertRecordOk u path c (ef c)) rest = _
    have hstep : insertRecordOk u path c (ef c) =
        { files := u.files
          vectors := u.vectors ++ [⟨u.nextVectorId, A.id, ef c, c⟩]
          nextFileId := u.nextFileId
          nextVectorId := u.nextVectorId + 1 } := by
      unfold insertRecordOk
      rw [hA]
    rw [hstep]
    have hA' : findFile
        { files := u.files
          vectors := u.vectors ++ [⟨u.nextVectorId, A.id, ef c, c⟩]
          nextFileId := u.nextFileId
          nextVectorId := u.nextVectorId + 1 : Store } path = some A := hA
    rw [ih _ hA']
    simp only [mkRows, List.append_assoc, List.singleton_append,
      List.length_cons]
    have harith : u.nextVectorId + 1 + rest.length =
        u.nextVectorId + (rest.length + 1) := by omega
    rw [harith]

/-- Inserting a non-empty chunk list into a store with no `path` row creates
exactly one fresh file row and its vector rows. -/
theorem insertAllOk_fresh (ef : String → List Int) (path : String)
    (c : String) (cs : List String) (t : Store)
    (hno : ∀ f ∈ t.files, (f.file_path == path) = false) :
    insertAllOk ef path t (c :: cs) =
      { files := t.files ++ [⟨t.nextFileId, path⟩]
        vectors := t.vectors ++ mkRows ef t.nextFileId t.nextVectorId (c :: cs)
        nextFileId := t.nextFileId + 1
        nextVectorId := t.nextVectorId + (c :: cs).length } := by
  have hfind : findFile t path = none := by
    unfold findFile
    exact List.find?_eq_none.mpr fun f hf => by rw [hno f hf]; simp
  show insertAllOk ef path (insertRecordOk t path c (ef c)) cs = _
  have hstep : insertRecordOk t path c (ef c) =
      { files := t.files ++ [⟨t.nextFileId, path⟩]
        vectors := t.vectors ++ [⟨t.nextVectorId, t.nextFileId, ef c, c⟩]
        nextFileId := t.nextFileId + 1
        nextVectorId := t.nextVectorId + 1 } := by
    unfold insertRecordOk
    rw [hfind]
  rw [hstep]
  have hA : findFile
      { files := t.files ++ [⟨t.nextFileId, path⟩]
        vectors := t.vectors ++ [⟨t.nextVectorId, t.nextFileId, ef c, c⟩]
        nextFileId := t.nextFileId + 1
        nextVectorId := t.nextVectorId + 1 : Store } path =
      some ⟨t.nextFileId, path⟩ := by
    unfold findFile
    simp only
    rw [List.find?_append]
    have h1 : t.files.find? (fun f => f.file_path == path) = none :=
      List.find?_eq_none.mpr fun f hf => by rw [hno f hf]; simp
    rw [h1]
    simp [List.find?]
  rw [insertAllOk_existing ef path ⟨t.nextFileId, path⟩ cs _ hA]
  simp only [mkRows, List.append_assoc, List.singleton_append,
    List.length_cons]
  have harith : t.nextVectorId + 1 + cs.length =
      t.nextVectorId + (cs.length + 1) := by omega
  rw [harith]

/-- Replacing a document in a well-formed store: after delete + insert the
store holds exactly one file row for the path, whose vector rows are exactly
the inserted chunks with fresh ids. -/
theorem replace_core (ef : String → List Int) (store : Store) (path : String)
    (c : String) (cs : List String) (hwf : store.wf) :
    ((insertAllOk ef path (delete_source_file store path) (c :: cs)).files.filter
      fun f => f.file_path == path) = [⟨store.nextFileId, path⟩] ∧
    (((insertAllOk ef path (delete_source_file store path) (c :: cs)).vectors.filter
      fun v => v.source_file_id == store.nextFileId).map fun v => v.snippet) =
      c :: cs ∧
    (∀ v ∈ (insertAllOk ef path (delete_source_file store path)
        (c :: cs)).vectors.filter fun v => v.source_file_id == store.nextFileId,
      store.nextVectorId ≤ v.id) := by
  have hno : ∀ f ∈ (delete_source_file store path).files,
      (f.file_path == path) = false := delete_no_path store path hwf.1
  have hctr := delete_counters store path
  have hvlt : ∀ v ∈ (delete_source_file store path).vectors,
      v.source_file_id < store.nextFileId := by
    intro v hv
    have := (wf_delete store path hwf).2.2.1 v hv
    rw [hctr.1] at this
    exact this
  rw [insertAllOk_fresh ef path c cs _ hno, hctr.1, hctr.2]
  have hfilesnil : (delete_source_file store path).files.filter
      (fun f => f.file_path == path) = [] :=
    List.filter_eq_nil_iff.mpr fun f hf => by rw [hno f hf]; simp
  have hvecnil : (delete_source_file store path).vectors.filter
      (fun v => v.source_file_id == store.nextFileId) = [] :=
    List.filter_eq_nil_iff.mpr fun v hv => by
      have := hvlt v hv
      simp only [beq_iff_eq]
      omega
  refine ⟨?_, ?_, ?_⟩
  · simp only [List.filter_append, hfilesnil, List.nil_append]
    rw [List.filter_cons_of_pos (by simp), List.filter_nil]
  · simp only [List.filter_append, hvecnil, List.nil_append]
    rw [List.filter_eq_self.mpr fun v hv => by
      rw [mkRows_sfid ef store.nextFileId (c :: cs) store.nextVectorId v hv]
      simp]
    exact mkRows_snippets ef store.nextFileId (c :: cs) store.nextVectorId
  · intro v hv
    simp only [List.filter_append, hvecnil, List.nil_append] at hv
    have hv' : v ∈ mkRows ef store.nextFileId store.nextVectorId (c :: cs) :=
      (List.mem_filter.mp hv).1
    exact mkRows_id_ge ef store.nextFileId (c :: cs) store.nextVectorId v hv'

/-- The committed store produced by a background run with an always-ok
provider. -/
theorem pdb_store_okEmbed (ef : String → List Int) (js : JobState)
    (store : Store) (jobId fileName : String) (chunks : List String)
    (rep : Bool) (h2 : chunks ≠ [])
    (h3 : ¬(0 < get_document_vector_count store fileName ∧ rep = false)) :
    (process_document_background (okEmbed ef) js store jobId fileName
        (.ok chunks) rep).2 =
      insertAllOk ef fileName
        (if rep then delete_source_file store fileName else store) chunks := by
  rw [pdb_run (okEmbed ef) js store jobId fileName chunks rep h2 h3]
  cases hpb : processBatches (okEmbed ef) jobId fileName chunks.length
      (update_job_status
        (update_job_status js jobId .processing
          "Extracting text from document..." none none)
        jobId .processing
        ("Creating vector embeddings for " ++ toString chunks.length ++
          " text chunks...") none none)
      (if rep then delete_source_file store fileName else store)
      chunks 0 with
  | mk js₃ rest =>
    have hsnd := processBatches_snd (okEmbed ef) jobId fileName chunks.length
      chunks
      (update_job_status
        (update_job_status js jobId .processing
          "Extracting text from document..." none none)
        jobId .processing
        ("Creating vector embeddings for " ++ toString chunks.length ++
          " text chunks...") none none)
      (if rep then delete_source_file store fileName else store) 0
    rw [hpb, insertSeq_okEmbed] at hsnd
    obtain ⟨store₂, err⟩ := rest
    obtain ⟨hst, herr⟩ := Prod.mk.injEq _ _ _ _ ▸ hsnd
    subst herr
    exact hst

/-- The replace run specialised to `replace_existing=True`. -/
theorem pdb_store_okEmbed_replace (ef : String → List Int) (js : JobState)
    (store : Store) (jobId fileName : String) (chunks : List String)
    (h2 : chunks ≠ []) :
    (process_document_background (okEmbed ef) js store jobId fileName
        (.ok chunks) true).2 =
      insertAllOk ef fileName (delete_source_file store fileName) chunks := by
  rw [pdb_store_okEmbed ef js store jobId fileName chunks true h2
    (fun h => by simpa using h.2)]
  rfl

/-- C4.  Ingesting the same path twice through the background coordinator
with `replace_existing=true` (all embedding calls succeeding, starting from
a well-formed store): after the second run the store holds exactly one
SourceFile row for the path, its chunks are exactly those of the second
ingestion in order, every one of its vector rows is fresh (id at least the
first run's final counter), and every row of the first run's store sits
below that counter — so no chunk of the first ingestion remains attached to
the path. -/
theorem C4_replace_idempotent (ef : String → List Int) (js js' : JobState)
    (store s1 s2 : Store) (jobId jobId' fileName : String)
    (chunks1 chunks2 : List String) (hwf : store.wf) (h1 : chunks1 ≠ [])
    (h2 : chunks2 ≠ [])
    (hs1 : s1 = (process_document_background (okEmbed ef) js store jobId
      fileName (.ok chunks1) true).2)
    (hs2 : s2 = (process_document_background (okEmbed ef) js' s1 jobId'
      fileName (.ok chunks2) true).2) :
    (s2.files.filter fun f => f.file_path == fileName).length = 1 ∧
    ∃ fid : Nat,
      (s2.files.filter fun f => f.file_path == fileName) =
        [⟨fid, fileName⟩] ∧
      ((s2.vectors.filter fun v => v.source_file_id == fid).map
        fun v => v.snippet) = chunks2 ∧
      (∀ v ∈ s2.vectors.filter fun v => v.source_file_id == fid,
        s1.nextVectorId ≤ v.id) ∧
      (∀ v ∈ s1.vectors, v.id < s1.nextVectorId) := by
  rw [pdb_store_okEmbed_replace ef js store jobId fileName chunks1 h1] at hs1
  have hwf1 : s1.wf := by
    rw [hs1]
    exact wf_insertAllOk ef fileName chunks1 _ (wf_delete store fileName hwf)
  rw [pdb_store_okEmbed_replace ef js' s1 jobId' fileName chunks2 h2] at hs2
  obtain ⟨c, cs, rfl⟩ := List.exists_cons_of_ne_nil h2
  have hcore := replace_core ef s1 fileName c cs hwf1
  rw [← hs2] at hcore
  refine ⟨by rw [hcore.1]; rfl, s1.nextFileId, hcore.1, hcore.2.1,
    hcore.2.2, hwf1.2.2.2⟩

/-- Witness for C4 at a concrete double ingestion: `a.txt` ingested with one
chunk, then re-ingested with two chunks under `replace_existing=true`. -/
theorem C4_replace_idempotent_witness :
    (let s1 := (process_document_background (okEmbed fun _ => [])
        (create_processing_job ⟨[], []⟩ "j1" "a.txt") ⟨[], [], 0, 0⟩ "j1"
        "a.txt" (.ok ["x"]) true).2
     let s2 := (process_document_background (okEmbed fun _ => [])
        (create_processing_job ⟨[], []⟩ "j2" "a.txt") s1 "j2" "a.txt"
        (.ok ["y", "z"]) true).2
     (s2.files.filter fun f => f.file_path == "a.txt").length = 1 ∧
     ∃ fid : Nat,
       (s2.files.filter fun f => f.file_path == "a.txt") =
         [⟨fid, "a.txt"⟩] ∧
       ((s2.vectors.filter fun v => v.source_file_id == fid).map
         fun v => v.snippet) = ["y", "z"] ∧
       (∀ v ∈ s2.vectors.filter fun v => v.source_file_id == fid,
         s1.nextVectorId ≤ v.id) ∧
       (∀ v ∈ s1.vectors, v.id < s1.nextVectorId)) :=
  C4_replace_idempotent (fun _ => [])
    (create_processing_job ⟨[], []⟩ "j1" "a.txt")
    (create_processing_job ⟨[], []⟩ "j2" "a.txt")
    ⟨[], [], 0, 0⟩ _ _ "j1" "j2" "a.txt" ["x"] ["y", "z"]
    (by refine ⟨List.Pairwise.nil, ?_, ?_, ?_⟩ <;> intro x hx <;> simp at hx)
    (by decide) (by decide) rfl rfl

/-- Witness for C9: a successful pdfplumber page makes the fallback
irrelevant, and a PyPDF2 exception after a whitespace-only pdfplumber pass
yields the wrapped both-methods-failed error. -/
theorem C9_pdf_extraction_strategy_witness :
    extract_text_from_pdf (.ok [Except.ok "hello"]) (.error "boom") =
      .ok (pyStrip (collectPages [Except.ok "hello"])) ∧
    extract_text_from_pdf (.ok [Except.ok " "]) (.error "boom") =
      .error (bothMethodsFailedMsg "boom") := by
  constructor
  · exact (C9_pdf_extraction_strategy.1 [Except.ok "hello"] (.error "boom")
      (.error "boom") (by decide)).1
  · rw [C9_pdf_extraction_strategy.2.2.1 [Except.ok " "] (.error "boom") (by decide)]
    exact C9_pdf_extraction_strategy.2.2.2.1 "boom"

end EduRAG
